import Mathlib

/-! # ESP32 USB webcam: frame arbitration

A shallow embedding of `src/esp32_camera.h` and `src/usb_webcam.cpp`:
the reference-counted frame handle (`CameraImage`), the frame cursor
(`CameraImageReader`), the requester masks and the per-tick arbitration of
`ESP32Camera::loop`, and the producer task `ESP32Camera::framebuffer_task`
with the two capacity-1 FreeRTOS queues.

Conventions.
* Machine integers are natural numbers reduced explicitly: `uint8_t` masks
  modulo `2 ^ 8`, `uint64_t` time stamps modulo `2 ^ 64`, `size_t` modulo
  `2 ^ 32` (the ESP32 is a 32-bit target).
* A `camera_fb_t *` is an `Option camera_fb_t`; `none` is `nullptr`.
* A `std::shared_ptr<CameraImage>` owned by the camera is the image together
  with the number of owners other than the camera, so that `use_count()` is
  that number plus one, and `0` for an empty pointer.
* Calls that leave the component (queue operations, callback managers) are
  recorded as a list of `Event`s returned next to the new state.
-/

namespace esphome.esp32_camera

/-! ## Data model -/

/-- The requester categories, `enum CameraRequester { IDLE, API_REQUESTER, WEB_REQUESTER }`. -/
inductive CameraRequester where
  | IDLE
  | API_REQUESTER
  | WEB_REQUESTER
deriving DecidableEq, Repr

/-- The integer value of an enumerator of `CameraRequester`. -/
def CameraRequester.toNat : CameraRequester → Nat
  | .IDLE => 0
  | .API_REQUESTER => 1
  | .WEB_REQUESTER => 2

/-- The native frame buffer descriptor `camera_fb_t` (pixel pointer, byte length, dimensions). -/
structure camera_fb_t where
  buf : Nat
  len : Nat
  width : Nat
  height : Nat
deriving DecidableEq, Repr

/-- A `camera_fb_t *`: `none` is `nullptr`. -/
abbrev FbPtr := Option camera_fb_t

/-- The class `CameraImage`: a native buffer and the `uint8_t` mask of requesters. -/
structure CameraImage where
  buffer_ : FbPtr
  requesters_ : Nat
deriving DecidableEq, Repr

/-- The constructor `CameraImage::CameraImage(camera_fb_t *buffer, uint8_t requesters)`:
the mask argument is converted to `uint8_t`. -/
def CameraImage.new (buffer : FbPtr) (requesters : Nat) : CameraImage :=
  { buffer_ := buffer, requesters_ := requesters % 2 ^ 8 }

/-- The accessor `CameraImage::get_raw_buffer`. -/
def CameraImage.get_raw_buffer (img : CameraImage) : FbPtr := img.buffer_

/-- The accessor `CameraImage::get_data_length`, `buffer_->len`; `none` when `buffer_` is
`nullptr` and the dereference is undefined. -/
def CameraImage.get_data_length (img : CameraImage) : Option Nat :=
  img.buffer_.map (fun fb => fb.len)

/-- The test `CameraImage::was_requested_by`: `(requesters_ & (1 << requester)) != 0`. -/
def CameraImage.was_requested_by (img : CameraImage) (requester : CameraRequester) : Bool :=
  (img.requesters_ &&& (1 <<< requester.toNat)) != 0

/-- A `std::shared_ptr<CameraImage>` held by the camera when it is not empty: the image and
the number of owners other than the camera. -/
structure SharedImage where
  image : CameraImage
  others : Nat
deriving DecidableEq, Repr

/-- The count `std::shared_ptr::use_count()`: `0` for an empty pointer. -/
def use_count : Option SharedImage → Nat
  | none => 0
  | some p => p.others + 1

/-- What a call of the component does to the outside: queue operations on the two
frame-buffer queues and calls of the three callback managers. -/
inductive Event where
  /-- The call `xQueueSend(framebuffer_return_queue_, &fb, portMAX_DELAY)`. -/
  | send_return (fb : FbPtr)
  /-- The call `xQueueReceive(framebuffer_get_queue_, &fb, 0L)` with its outcome:
  `none` when it did not return `pdTRUE`. -/
  | receive_get (outcome : Option FbPtr)
  /-- The call `new_image_callback_.call(current_image_)`. -/
  | new_image (img : CameraImage)
  /-- The call `stream_start_callback_.call()`. -/
  | stream_start
  /-- The call `stream_stop_callback_.call()`. -/
  | stream_stop
deriving DecidableEq, Repr

/-- The attributes of `class ESP32Camera` that the arbitration reads or writes, with the
default member values of the header. -/
structure ESP32Camera where
  max_update_interval_ : Nat := 1000
  idle_update_interval_ : Nat := 15000
  current_image_ : Option SharedImage := none
  single_requesters_ : Nat := 0
  stream_requesters_ : Nat := 0
  last_idle_request_ : Nat := 0
  last_update_ : Nat := 0
deriving DecidableEq, Repr

/-- Subtraction of two `uint64_t` values. -/
def sub_u64 (a b : Nat) : Nat := (a + (2 ^ 64 - b % 2 ^ 64)) % 2 ^ 64

/-- Bitwise complement of a 32-bit `unsigned`. -/
def not_u32 (a : Nat) : Nat := 2 ^ 32 - 1 - a % 2 ^ 32

/-! ## Setters and requester arbitration -/

/-- The setter `ESP32Camera::set_max_update_interval(uint32_t)`. -/
def set_max_update_interval (max_update_interval : Nat) (s : ESP32Camera) : ESP32Camera :=
  { s with max_update_interval_ := max_update_interval % 2 ^ 32 }

/-- The setter `ESP32Camera::set_idle_update_interval(uint32_t)`. -/
def set_idle_update_interval (idle_update_interval : Nat) (s : ESP32Camera) : ESP32Camera :=
  { s with idle_update_interval_ := idle_update_interval % 2 ^ 32 }

/-- The method `ESP32Camera::request_image`: `single_requesters_ |= (1U << requester)`. -/
def request_image (requester : CameraRequester) (s : ESP32Camera) : ESP32Camera :=
  { s with single_requesters_ := (s.single_requesters_ ||| (1 <<< requester.toNat)) % 2 ^ 8 }

/-- The method `ESP32Camera::start_stream`: call the start callbacks, then
`stream_requesters_ |= (1U << requester)`. -/
def start_stream (requester : CameraRequester) (s : ESP32Camera) : ESP32Camera × List Event :=
  ({ s with stream_requesters_ := (s.stream_requesters_ ||| (1 <<< requester.toNat)) % 2 ^ 8 },
   [Event.stream_start])

/-- The method `ESP32Camera::stop_stream`: call the stop callbacks, then
`stream_requesters_ &= ~(1U << requester)`. -/
def stop_stream (requester : CameraRequester) (s : ESP32Camera) : ESP32Camera × List Event :=
  ({ s with
      stream_requesters_ := (s.stream_requesters_ &&& not_u32 (1 <<< requester.toNat)) % 2 ^ 8 },
   [Event.stream_stop])

/-- The predicate `ESP32Camera::has_requested_image_`: `single_requesters_ || stream_requesters_`. -/
def has_requested_image_ (s : ESP32Camera) : Bool :=
  s.single_requesters_ != 0 || s.stream_requesters_ != 0

/-- The predicate `ESP32Camera::can_return_image_`: `current_image_.use_count() == 1`. -/
def can_return_image_ (s : ESP32Camera) : Bool :=
  use_count s.current_image_ == 1

/-! ## The per-tick function `ESP32Camera::loop` -/

/-- Lines 283-288 of `loop`: when the image can be returned, send its raw buffer on the
return queue and reset `current_image_`. -/
def loop_return (s : ESP32Camera) : ESP32Camera × List Event :=
  if can_return_image_ s then
    match s.current_image_ with
    | some p => ({ s with current_image_ := none }, [Event.send_return p.image.get_raw_buffer])
    | none => (s, [])
  else (s, [])

/-- Lines 291-295 of `loop`: request an idle image every `idle_update_interval_`. -/
def loop_idle (now : Nat) (s : ESP32Camera) : ESP32Camera :=
  if s.idle_update_interval_ ≠ 0 ∧ sub_u64 now s.last_idle_request_ > s.idle_update_interval_ then
    request_image CameraRequester.IDLE { s with last_idle_request_ := now }
  else s

/-- Lines 298-305 of `loop`: the three early returns before the fetch. The result is `true`
when the tick goes on to `xQueueReceive`. -/
def loop_should_fetch (now : Nat) (s : ESP32Camera) : Bool :=
  if !has_requested_image_ s then false
  else if use_count s.current_image_ > 1 then false
  else if sub_u64 now s.last_update_ ≤ s.max_update_interval_ then false
  else true

/-- Lines 308-326 of `loop`. The argument `ready` is what the get queue holds (`none` when it
is empty, so that `xQueueReceive` with a zero timeout does not return `pdTRUE`); `retained`
is the number of references the subscribers keep when the image callbacks have returned. -/
def loop_fetch (now : Nat) (ready : Option FbPtr) (retained : Nat) (s : ESP32Camera) :
    ESP32Camera × List Event :=
  match ready with
  | none => (s, [Event.receive_get none])
  | some none => (s, [Event.receive_get (some none), Event.send_return none])
  | some (some fb) =>
    let img := CameraImage.new (some fb) (s.single_requesters_ ||| s.stream_requesters_)
    ({ s with
        current_image_ := some { image := img, others := retained },
        last_update_ := now,
        single_requesters_ := 0 },
     [Event.receive_get (some (some fb)), Event.new_image img])

/-- Lines 290-326 of `loop`: everything after the release check. -/
def loop_body (now : Nat) (ready : Option FbPtr) (retained : Nat) (s : ESP32Camera) :
    ESP32Camera × List Event :=
  let s1 := loop_idle now s
  if loop_should_fetch now s1 then loop_fetch now ready retained s1 else (s1, [])

/-- The method `ESP32Camera::loop`, one tick of the arbiter. The argument `now` is the value
of `esp_timer_get_time()` read by the tick. -/
def loop (now : Nat) (ready : Option FbPtr) (retained : Nat) (s : ESP32Camera) :
    ESP32Camera × List Event :=
  let r := loop_return s
  let b := loop_body now ready retained r.1
  (b.1, r.2 ++ b.2)

/-- The tick published a frame: it called the image callbacks. -/
def published (evs : List Event) : Bool :=
  evs.any (fun e => match e with
    | Event.new_image _ => true
    | _ => false)

/-- The tick called `xQueueReceive` on the get queue. -/
def fetched (evs : List Event) : Bool :=
  evs.any (fun e => match e with
    | Event.receive_get _ => true
    | _ => false)

/-- The buffers the tick sent on the return queue, in order. -/
def returned (evs : List Event) : List FbPtr :=
  evs.filterMap (fun e => match e with
    | Event.send_return fb => some fb
    | _ => none)

/-! ## Sequences of calls on the arbiter thread -/

/-- One call on the arbiter thread: a tick of `loop` with what it reads from its
environment, one of the requester calls, or a subscriber dropping one of the references it
kept to the current image or copying one. -/
inductive Action where
  | tick (now : Nat) (ready : Option FbPtr) (retained : Nat)
  | request_image (requester : CameraRequester)
  | start_stream (requester : CameraRequester)
  | stop_stream (requester : CameraRequester)
  | drop
  | share
deriving DecidableEq, Repr

/-- A subscriber drops one reference to the current image; nothing happens when no other
owner is left. -/
def drop_reference (s : ESP32Camera) : ESP32Camera :=
  match s.current_image_ with
  | some p => if 0 < p.others then
      { s with current_image_ := some { p with others := p.others - 1 } } else s
  | none => s

/-- A subscriber that holds a reference to the current image copies it; nothing happens
when no subscriber holds one. -/
def share_reference (s : ESP32Camera) : ESP32Camera :=
  match s.current_image_ with
  | some p => if 0 < p.others then
      { s with current_image_ := some { p with others := p.others + 1 } } else s
  | none => s

/-- The effect of one action. -/
def Action.apply : Action → ESP32Camera → ESP32Camera × List Event
  | .tick now ready retained, s => loop now ready retained s
  | .request_image r, s => (esp32_camera.request_image r s, [])
  | .start_stream r, s => esp32_camera.start_stream r s
  | .stop_stream r, s => esp32_camera.stop_stream r s
  | .drop, s => (drop_reference s, [])
  | .share, s => (share_reference s, [])

/-- The effect of a sequence of actions: the final state and all events in order. -/
def run : List Action → ESP32Camera → ESP32Camera × List Event
  | [], s => (s, [])
  | a :: as, s =>
    let r := a.apply s
    let q := run as r.1
    (q.1, r.2 ++ q.2)

/-- The action is a subscriber dropping a reference. -/
def Action.isDrop : Action → Bool
  | .drop => true
  | _ => false

/-- The current image is `img` and some owner other than the camera holds it. -/
def held (s : ESP32Camera) (img : CameraImage) : Prop :=
  ∃ p, s.current_image_ = some p ∧ p.image = img ∧ 0 < p.others

/-! ## The frame cursor `CameraImageReader` -/

/-- Subtraction of two `size_t` values (32 bits on the ESP32). -/
def sub_size (a b : Nat) : Nat := (a + (2 ^ 32 - b % 2 ^ 32)) % 2 ^ 32

/-- The class `CameraImageReader`: a shared image pointer (`none` when empty) and a
`size_t` offset. -/
structure CameraImageReader where
  image_ : Option CameraImage := none
  offset_ : Nat := 0
deriving DecidableEq, Repr

/-- The method `CameraImageReader::set_image`. -/
def CameraImageReader.set_image (image : Option CameraImage) (_r : CameraImageReader) :
    CameraImageReader :=
  { image_ := image, offset_ := 0 }

/-- The method `CameraImageReader::available`; `none` when the bound image has a null buffer
and `get_data_length` is undefined. -/
def CameraImageReader.available (r : CameraImageReader) : Option Nat :=
  match r.image_ with
  | none => some 0
  | some img => img.get_data_length.map (fun len => sub_size len r.offset_)

/-- The method `CameraImageReader::return_image`. -/
def CameraImageReader.return_image (r : CameraImageReader) : CameraImageReader :=
  { r with image_ := none }

/-- The method `CameraImageReader::consume_data`: `offset_ += consumed` on `size_t`. -/
def CameraImageReader.consume_data (consumed : Nat) (r : CameraImageReader) :
    CameraImageReader :=
  { r with offset_ := (r.offset_ + consumed) % 2 ^ 32 }

/-- A sequence of `consume_data` calls. -/
def CameraImageReader.consume_all : List Nat → CameraImageReader → CameraImageReader
  | [], r => r
  | n :: ns, r => consume_all ns (r.consume_data n)

/-- Every call of the sequence meets the documented precondition: the amount consumed is at
most `available()` at the time of the call. -/
def CameraImageReader.within_available : List Nat → CameraImageReader → Bool
  | [], _ => true
  | n :: ns, r =>
    (match r.available with
      | some a => decide (n ≤ a)
      | none => false) && within_available ns (r.consume_data n)

/-! ## The producer task and the two queues -/

/-- Where `ESP32Camera::framebuffer_task` stands in its loop body, with the value of its
local `framebuffer`. -/
inductive ProducerPc where
  /-- Before `esp_camera_fb_get()` (line 379). -/
  | fb_get
  /-- Before `xQueueSend` on the get queue (line 380). -/
  | send_get (framebuffer : FbPtr)
  /-- Before `xQueueReceive` on the return queue (line 382). -/
  | receive_return
  /-- Before `esp_camera_fb_return(framebuffer)` (line 383). -/
  | fb_return (framebuffer : FbPtr)
deriving DecidableEq, Repr

/-- Where `ESP32Camera::loop` stands at its queue operations. -/
inductive ArbiterPc where
  /-- Before the release check (line 283), also between two ticks. -/
  | line_283
  /-- After the release check, before the clock is read (line 290). -/
  | line_290
  /-- Before `xQueueSend` of the invalid frame `fb` on the return queue (line 317). -/
  | line_317 (fb : FbPtr)
deriving DecidableEq, Repr

/-- The producer task, the arbiter and the two queues of capacity one created by `setup`
(`none` is an empty queue), with counters of the calls made to the frame source. -/
structure System where
  camera : ESP32Camera
  framebuffer_get_queue_ : Option FbPtr
  framebuffer_return_queue_ : Option FbPtr
  producer : ProducerPc
  arbiter : ArbiterPc
  acquired : Nat
  released : Nat
deriving DecidableEq, Repr

/-- The state left by the constructor, the two interval setters and a successful `setup`
at clock reading `now`: empty queues, the producer task at the top of its loop. -/
def setup (now max_update_interval idle_update_interval : Nat) : System :=
  { camera :=
      { set_idle_update_interval idle_update_interval
          (set_max_update_interval max_update_interval {}) with last_update_ := now },
    framebuffer_get_queue_ := none,
    framebuffer_return_queue_ := none,
    producer := ProducerPc.fb_get,
    arbiter := ArbiterPc.line_283,
    acquired := 0,
    released := 0 }

/-- One atomic step of the system. -/
inductive Move where
  /-- The next statement of `framebuffer_task`; `fb` is what `esp_camera_fb_get` returns when
  that statement is the acquisition. -/
  | producer (fb : FbPtr)
  /-- The release check of `loop`, lines 283-288. -/
  | tick_return
  /-- Lines 290-326 of `loop` up to the send of an invalid frame. -/
  | tick_body (now : Nat) (retained : Nat)
  /-- The send of an invalid frame, line 317. -/
  | tick_forward
  /-- A requester call or a subscriber dropping or copying a reference. -/
  | request_image (requester : CameraRequester)
  | start_stream (requester : CameraRequester)
  | stop_stream (requester : CameraRequester)
  | drop
  | share
deriving DecidableEq, Repr

/-- The statement `xQueueSend(queue, &item, portMAX_DELAY)` on a queue of capacity one:
`none` when the queue is full and the caller stays blocked. -/
def xQueueSend (queue : Option FbPtr) (item : FbPtr) : Option (Option FbPtr) :=
  match queue with
  | none => some (some item)
  | some _ => none

/-- The effect of a move; `none` when the move cannot be taken in this state (the thread
is elsewhere, or it is blocked on a queue). -/
def step (m : Move) (sys : System) : Option System :=
  match m with
  | .producer fb =>
    match sys.producer with
    | .fb_get => some { sys with producer := .send_get fb, acquired := sys.acquired + 1 }
    | .send_get framebuffer =>
      (xQueueSend sys.framebuffer_get_queue_ framebuffer).map
        (fun q => { sys with framebuffer_get_queue_ := q, producer := .receive_return })
    | .receive_return =>
      match sys.framebuffer_return_queue_ with
      | some framebuffer =>
        some { sys with framebuffer_return_queue_ := none, producer := .fb_return framebuffer }
      | none => none
    | .fb_return _ => some { sys with producer := .fb_get, released := sys.released + 1 }
  | .tick_return =>
    match sys.arbiter with
    | .line_283 =>
      let r := loop_return sys.camera
      match returned r.2 with
      | [] => some { sys with camera := r.1, arbiter := .line_290 }
      | fb :: _ =>
        (xQueueSend sys.framebuffer_return_queue_ fb).map
          (fun q => { sys with framebuffer_return_queue_ := q, camera := r.1,
                               arbiter := .line_290 })
    | _ => none
  | .tick_body now retained =>
    match sys.arbiter with
    | .line_290 =>
      let r := loop_body now sys.framebuffer_get_queue_ retained sys.camera
      some { sys with
        camera := r.1,
        framebuffer_get_queue_ := if fetched r.2 then none else sys.framebuffer_get_queue_,
        arbiter := match returned r.2 with
          | [] => .line_283
          | fb :: _ => .line_317 fb }
    | _ => none
  | .tick_forward =>
    match sys.arbiter with
    | .line_317 fb =>
      (xQueueSend sys.framebuffer_return_queue_ fb).map
        (fun q => { sys with framebuffer_return_queue_ := q, arbiter := .line_283 })
    | _ => none
  | .request_image r => some { sys with camera := esp32_camera.request_image r sys.camera }
  | .start_stream r => some { sys with camera := (esp32_camera.start_stream r sys.camera).1 }
  | .stop_stream r => some { sys with camera := (esp32_camera.stop_stream r sys.camera).1 }
  | .drop => some { sys with camera := drop_reference sys.camera }
  | .share => some { sys with camera := share_reference sys.camera }

/-- The effect of a sequence of moves, `none` when one of them cannot be taken. -/
def steps : List Move → System → Option System
  | [], sys => some sys
  | m :: ms, sys => (step m sys).bind (steps ms)

/-- The number of items in a queue of capacity one, or of images in a shared pointer. -/
def occupied {α : Type} (q : Option α) : Nat :=
  match q with
  | some _ => 1
  | none => 0

/-- The number of invalid frames the arbiter is about to forward. -/
def ArbiterPc.pending : ArbiterPc → Nat
  | .line_317 _ => 1
  | _ => 0

/-- The number of buffers out of the hands of the producer task: in a queue, wrapped in the
current image, or about to be forwarded by the arbiter. -/
def in_flight (sys : System) : Nat :=
  occupied sys.framebuffer_get_queue_ + occupied sys.camera.current_image_
    + sys.arbiter.pending + occupied sys.framebuffer_return_queue_

/-- The number of current images of the arbiter. -/
def current_images (sys : System) : Nat := occupied sys.camera.current_image_

/-- The number of buffers acquired and not yet given back, by the place of the producer
task in its loop. -/
def ProducerPc.outstanding : ProducerPc → Nat
  | .fb_get => 0
  | _ => 1

/-- The number of buffers in the local variable of the producer task. -/
def ProducerPc.in_hand : ProducerPc → Nat
  | .send_get _ => 1
  | .fb_return _ => 1
  | _ => 0

/-! ## Notions used in the statements -/

/-- The state of the arbiter at line 297 of `loop`, after the release check and the idle
request. -/
def before_fetch (now : Nat) (s : ESP32Camera) : ESP32Camera :=
  loop_idle now (loop_return s).1

/-- The tick passes the three early returns of lines 298-305 and calls `xQueueReceive`. -/
def gates_pass (now : Nat) (s : ESP32Camera) : Bool :=
  loop_should_fetch now (before_fetch now s)

/-- The tick takes the branch of lines 292-295 and requests an idle image. -/
def idle_due (now : Nat) (s : ESP32Camera) : Bool :=
  decide (s.idle_update_interval_ ≠ 0 ∧
    sub_u64 now s.last_idle_request_ > s.idle_update_interval_)

/-- The system state used to illustrate the handoff: one frame acquired, published,
dropped by its subscriber, sent back and received by the producer task. -/
def demo_system : System :=
  { camera := { last_update_ := 5000 },
    framebuffer_get_queue_ := none,
    framebuffer_return_queue_ := none,
    producer := ProducerPc.fb_return (some ⟨7, 100, 4, 4⟩),
    arbiter := ArbiterPc.line_290,
    acquired := 1,
    released := 0 }

/-- The clock readings of the ticks of a sequence of actions, in order. -/
def clocks : List Action → List Nat
  | [] => []
  | a :: as =>
    match a with
    | .tick now _ _ => now :: clocks as
    | _ => clocks as

/-- The clock readings of the ticks that publish a frame when the sequence of actions runs
from `s`, in order. -/
def publish_clocks : List Action → ESP32Camera → List Nat
  | [], _ => []
  | a :: as, s =>
    match a with
    | .tick now ready retained =>
      if published (loop now ready retained s).2 then
        now :: publish_clocks as (a.apply s).1
      else publish_clocks as (a.apply s).1
    | _ => publish_clocks as (a.apply s).1

/-- The clock readings of the ticks that request an idle image when the sequence of
actions runs from `s`, in order. -/
def idle_clocks : List Action → ESP32Camera → List Nat
  | [], _ => []
  | a :: as, s =>
    match a with
    | .tick now _ _ =>
      if idle_due now s then now :: idle_clocks as (a.apply s).1
      else idle_clocks as (a.apply s).1
    | _ => idle_clocks as (a.apply s).1

/-- The action is a tick. -/
def Action.isTick : Action → Bool
  | .tick _ _ _ => true
  | _ => false

/-- The number of valid (non-null) buffers the events send on the return queue. -/
def sent_valid (evs : List Event) : Nat :=
  evs.countP (fun e => match e with
    | Event.send_return (some _) => true
    | _ => false)

/-- The number of valid (non-null) buffers the events receive from the get queue. -/
def received_valid (evs : List Event) : Nat :=
  evs.countP (fun e => match e with
    | Event.receive_get (some (some _)) => true
    | _ => false)

/-- The current image, when there is one, wraps a valid buffer. -/
def valid_current (s : ESP32Camera) : Prop :=
  ∀ p, s.current_image_ = some p → ∃ fb, p.image.buffer_ = some fb

/-- The system state used to illustrate the release check: one frame acquired and
published to no subscriber, the arbiter at the start of the next tick. -/
def demo_published : System :=
  { camera :=
      { current_image_ := some ⟨CameraImage.new (some ⟨7, 100, 4, 4⟩) 4, 0⟩,
        last_update_ := 5000 },
    framebuffer_get_queue_ := none,
    framebuffer_return_queue_ := none,
    producer := ProducerPc.receive_return,
    arbiter := ArbiterPc.line_283,
    acquired := 1,
    released := 0 }

/-- The bookkeeping invariant of the handoff: the calls to the frame source and the
buffers in flight agree with the place of the producer task in its loop. -/
def balanced (sys : System) : Prop :=
  sys.acquired = sys.released + sys.producer.outstanding ∧
    in_flight sys + sys.producer.in_hand = sys.producer.outstanding

/-! ## Lemmas on the release check -/

/-- What the release check of lines 283-288 does, by the reference count. -/
theorem loop_return_eq (s : ESP32Camera) :
    loop_return s =
      match s.current_image_ with
      | some p => if p.others = 0 then
          ({ s with current_image_ := none }, [Event.send_return p.image.buffer_]) else (s, [])
      | none => (s, []) := by
  unfold loop_return can_return_image_ use_count
  cases h : s.current_image_ with
  | none => simp
  | some p => by_cases hp : p.others = 0 <;> simp [hp, CameraImage.get_raw_buffer]

/-- A tick that starts with an image still held by a subscriber stops before the fetch. -/
theorem loop_of_held (now : Nat) (ready : Option FbPtr) (retained : Nat) (s : ESP32Camera)
    (p : SharedImage) (hp : s.current_image_ = some p) (ho : 0 < p.others) :
    (loop now ready retained s).2 = [] ∧
      (loop now ready retained s).1.current_image_ = some p := by
  have hne : p.others ≠ 0 := by omega
  simp only [loop, loop_return_eq, hp, hne, if_false, loop_body, loop_should_fetch, loop_idle,
    request_image]
  split_ifs <;> simp_all [use_count]

/-- An action other than a drop neither sends a held image back nor lets go of it. -/
theorem apply_of_held (a : Action) (s : ESP32Camera) (img : CameraImage) (h : held s img)
    (ha : a.isDrop = false) :
    returned (a.apply s).2 = [] ∧ held (a.apply s).1 img := by
  obtain ⟨p, hp, hi, ho⟩ := h
  cases a with
  | tick now ready retained =>
    have := loop_of_held now ready retained s p hp ho
    simp only [Action.apply, this.1]
    exact ⟨rfl, p, this.2, hi, ho⟩
  | request_image r => exact ⟨rfl, p, by simpa [Action.apply, request_image] using hp, hi, ho⟩
  | start_stream r => exact ⟨rfl, p, by simpa [Action.apply, start_stream] using hp, hi, ho⟩
  | stop_stream r => exact ⟨rfl, p, by simpa [Action.apply, stop_stream] using hp, hi, ho⟩
  | drop => simp [Action.isDrop] at ha
  | share =>
    refine ⟨rfl, { p with others := p.others + 1 }, ?_, hi, Nat.succ_pos _⟩
    simp [Action.apply, share_reference, hp, ho]

/-- A sequence of actions without a drop neither sends a held image back nor lets go of it. -/
theorem run_of_held (acts : List Action) :
    ∀ (s : ESP32Camera) (img : CameraImage), held s img →
      (∀ a ∈ acts, a.isDrop = false) →
      returned (run acts s).2 = [] ∧ held (run acts s).1 img := by
  induction acts with
  | nil => intro s img h _; exact ⟨rfl, h⟩
  | cons a as ih =>
    intro s img h hall
    have h1 := apply_of_held a s img h (hall a (List.mem_cons_self _ _))
    have h2 := ih (a.apply s).1 img h1.2 (fun b hb => hall b (List.mem_cons_of_mem _ hb))
    refine ⟨?_, h2.2⟩
    simp only [run, returned, List.filterMap_append] at h1 h2 ⊢
    rw [h1.1, h2.1]; rfl

/-- The events of a tick start with those of its release check. -/
theorem loop_events (now : Nat) (ready : Option FbPtr) (retained : Nat) (s : ESP32Camera) :
    (loop now ready retained s).2 =
      (loop_return s).2 ++ (loop_body now ready retained (loop_return s).1).2 := rfl

/-! ## C1: the release check -/

/-- C1. A tick sends the native buffer of the current image on the return queue and resets
`current_image_` if and only if there is a current image and its `use_count()` is exactly 1.
When it is 1 that send is the first thing the tick does. While a subscriber holds a
reference, a tick does nothing at all and keeps the image, and so does every sequence of
ticks, requester calls and reference copies; after the last subscriber has dropped its
reference the next tick sends the buffer back. -/
theorem release_iff_sole_owner (now : Nat) (ready : Option FbPtr) (retained : Nat)
    (s : ESP32Camera) :
    ((∃ p, s.current_image_ = some p ∧
        p.image.buffer_ ∈ returned (loop now ready retained s).2 ∧
        (loop_return s).2 = [Event.send_return p.image.buffer_] ∧
        (loop_return s).1.current_image_ = none) ↔ use_count s.current_image_ = 1)
    ∧ (use_count s.current_image_ = 1 → ∃ p rest, s.current_image_ = some p ∧
        (loop now ready retained s).2 = Event.send_return p.image.buffer_ :: rest)
    ∧ (use_count s.current_image_ ≠ 1 → loop_return s = (s, []))
    ∧ (∀ p, s.current_image_ = some p → 0 < p.others →
        (loop now ready retained s).2 = [] ∧
        (loop now ready retained s).1.current_image_ = some p)
    ∧ (∀ acts img, held s img → (∀ a ∈ acts, a.isDrop = false) →
        returned (run acts s).2 = [] ∧ held (run acts s).1 img)
    ∧ (∀ p, s.current_image_ = some p → p.others = 1 →
        ∃ rest, (run [Action.drop, Action.tick now ready retained] s).2 =
          Event.send_return p.image.buffer_ :: rest) := by
  refine ⟨?_, ?_, ?_, ?_, ?_, ?_⟩
  · constructor
    · rintro ⟨p, hp, -, hs, -⟩
      rw [loop_return_eq, hp] at hs
      by_cases ho : p.others = 0
      · simp [hp, use_count, ho]
      · simp [ho] at hs
    · intro h
      cases hc : s.current_image_ with
      | none => simp [hc, use_count] at h
      | some p =>
        have ho : p.others = 0 := by simpa [hc, use_count] using h
        refine ⟨p, rfl, ?_, ?_, ?_⟩
        · rw [loop_events, loop_return_eq, hc]
          simp [ho, returned]
        · rw [loop_return_eq, hc]; simp [ho]
        · rw [loop_return_eq, hc]; simp [ho]
  · intro h
    cases hc : s.current_image_ with
    | none => simp [hc, use_count] at h
    | some p =>
      have ho : p.others = 0 := by simpa [hc, use_count] using h
      refine ⟨p, (loop_body now ready retained (loop_return s).1).2, rfl, ?_⟩
      rw [loop_events, loop_return_eq, hc]
      simp [ho]
  · intro h
    rw [loop_return_eq]
    cases hc : s.current_image_ with
    | none => rfl
    | some p =>
      have ho : p.others ≠ 0 := by simpa [hc, use_count] using h
      simp [ho]
  · intro p hp ho
    exact loop_of_held now ready retained s p hp ho
  · intro acts img h hall
    exact run_of_held acts s img h hall
  · intro p hp ho
    refine ⟨(loop_body now ready retained
      (loop_return (drop_reference s)).1).2 ++ [], ?_⟩
    simp only [run, Action.apply, loop_events, List.nil_append]
    rw [loop_return_eq]
    simp [drop_reference, hp, ho]

/-- C1 at a concrete state: an image with one subscriber reference is kept by a tick, and
sent back by the tick after the drop. -/
theorem release_iff_sole_owner_witness :
    (loop 5000 none 0
        { current_image_ := some ⟨CameraImage.new (some ⟨7, 100, 4, 4⟩) 4, 1⟩ }).2 = [] ∧
      ∃ rest, (run [Action.drop, Action.tick 5000 none 0]
        { current_image_ := some ⟨CameraImage.new (some ⟨7, 100, 4, 4⟩) 4, 1⟩ }).2 =
          Event.send_return (some ⟨7, 100, 4, 4⟩) :: rest :=
  ⟨((release_iff_sole_owner 5000 none 0
      { current_image_ := some ⟨CameraImage.new (some ⟨7, 100, 4, 4⟩) 4, 1⟩ }).2.2.2.1
      ⟨CameraImage.new (some ⟨7, 100, 4, 4⟩) 4, 1⟩ rfl (by decide)).1,
   (release_iff_sole_owner 5000 none 0
      { current_image_ := some ⟨CameraImage.new (some ⟨7, 100, 4, 4⟩) 4, 1⟩ }).2.2.2.2.2
      ⟨CameraImage.new (some ⟨7, 100, 4, 4⟩) 4, 1⟩ rfl rfl⟩

/-! ## C2: one buffer in flight -/

/-- The outcomes of lines 290-326, by what the get queue holds. -/
theorem loop_body_cases (now : Nat) (q : Option FbPtr) (retained : Nat) (s : ESP32Camera) :
    let r := loop_body now q retained s
    (fetched r.2 = false ∧ returned r.2 = [] ∧ r.1.current_image_ = s.current_image_)
    ∨ (q = none ∧ fetched r.2 = true ∧ returned r.2 = [] ∧
        r.1.current_image_ = s.current_image_)
    ∨ (q = some none ∧ fetched r.2 = true ∧ returned r.2 = [none] ∧
        r.1.current_image_ = s.current_image_)
    ∨ (∃ fb, q = some (some fb) ∧ fetched r.2 = true ∧ returned r.2 = [] ∧
        r.1.current_image_.isSome = true) := by
  have hidle : (loop_idle now s).current_image_ = s.current_image_ := by
    unfold loop_idle request_image; split_ifs <;> rfl
  simp only [loop_body]
  split_ifs with hf
  · rcases q with _ | _ | fb
    · right; left; exact ⟨rfl, rfl, rfl, hidle⟩
    · right; right; left; exact ⟨rfl, rfl, rfl, hidle⟩
    · right; right; right; exact ⟨fb, rfl, rfl, rfl, rfl⟩
  · left; exact ⟨rfl, rfl, hidle⟩

/-- The state left by `setup` is balanced. -/
theorem balanced_setup (now max_update_interval idle_update_interval : Nat) :
    balanced (setup now max_update_interval idle_update_interval) := by
  simp [balanced, setup, in_flight, set_idle_update_interval, set_max_update_interval,
    occupied, ArbiterPc.pending, ProducerPc.outstanding, ProducerPc.in_hand]

/-- Dropping a reference keeps `current_image_` empty or not. -/
theorem occupied_drop_reference (s : ESP32Camera) :
    occupied (drop_reference s).current_image_ = occupied s.current_image_ := by
  unfold drop_reference
  cases h : s.current_image_ with
  | none => simp [h]
  | some p => by_cases ho : 0 < p.others <;> simp [ho, h, occupied]

/-- Copying a reference keeps `current_image_` empty or not. -/
theorem occupied_share_reference (s : ESP32Camera) :
    occupied (share_reference s).current_image_ = occupied s.current_image_ := by
  unfold share_reference
  cases h : s.current_image_ with
  | none => simp [h]
  | some p => by_cases ho : 0 < p.others <;> simp [ho, h, occupied]

/-- Every move keeps the system balanced. -/
theorem step_balanced (m : Move) (sys sys' : System) (h : balanced sys)
    (hs : step m sys = some sys') : balanced sys' := by
  obtain ⟨hcount, hflight⟩ := h
  unfold in_flight at hflight
  cases m with
  | producer fb =>
    simp only [step] at hs
    cases hp : sys.producer with
    | fb_get =>
      simp only [hp, Option.some.injEq] at hs
      subst hs
      simp only [hp, ProducerPc.outstanding, ProducerPc.in_hand] at hcount hflight
      simp only [balanced, in_flight, ProducerPc.outstanding, ProducerPc.in_hand]
      omega
    | send_get framebuffer =>
      simp only [hp, xQueueSend] at hs
      cases hq : sys.framebuffer_get_queue_ with
      | some x => simp [hq] at hs
      | none =>
        simp only [hq, Option.map_some', Option.some.injEq] at hs
        subst hs
        simp only [hp, hq, occupied, ProducerPc.outstanding, ProducerPc.in_hand]
          at hcount hflight
        simp only [balanced, in_flight, occupied, ProducerPc.outstanding, ProducerPc.in_hand]
        omega
    | receive_return =>
      simp only [hp] at hs
      cases hq : sys.framebuffer_return_queue_ with
      | none => simp [hq] at hs
      | some x =>
        simp only [hq, Option.some.injEq] at hs
        subst hs
        simp only [hp, hq, occupied, ProducerPc.outstanding, ProducerPc.in_hand]
          at hcount hflight
        simp only [balanced, in_flight, occupied, ProducerPc.outstanding, ProducerPc.in_hand]
        omega
    | fb_return framebuffer =>
      simp only [hp, Option.some.injEq] at hs
      subst hs
      simp only [hp, ProducerPc.outstanding, ProducerPc.in_hand] at hcount hflight
      simp only [balanced, in_flight, ProducerPc.outstanding, ProducerPc.in_hand]
      omega
  | tick_return =>
    simp only [step] at hs
    cases ha : sys.arbiter with
    | line_290 => simp [ha] at hs
    | line_317 fb => simp [ha] at hs
    | line_283 =>
      simp only [ha, loop_return_eq] at hs
      simp only [ha, ArbiterPc.pending] at hflight
      cases hc : sys.camera.current_image_ with
      | none =>
        simp only [hc, returned, List.filterMap_nil, Option.some.injEq] at hs
        subst hs
        simp only [hc, occupied] at hflight
        simp only [balanced, in_flight, hc, occupied, ArbiterPc.pending]
        omega
      | some p =>
        simp only [hc, occupied] at hflight
        by_cases ho : p.others = 0
        · simp only [hc, ho, if_true, returned, List.filterMap_cons, List.filterMap_nil,
            xQueueSend] at hs
          cases hq : sys.framebuffer_return_queue_ with
          | some x => simp [hq] at hs
          | none =>
            simp only [hq, Option.map_some', Option.some.injEq] at hs
            subst hs
            simp only [hq, occupied] at hflight
            simp only [balanced, in_flight, occupied, ArbiterPc.pending]
            omega
        · simp only [hc, ho, if_false, returned, List.filterMap_nil, Option.some.injEq] at hs
          subst hs
          simp only [balanced, in_flight, hc, occupied, ArbiterPc.pending]
          omega
  | tick_body now retained =>
    simp only [step] at hs
    cases ha : sys.arbiter with
    | line_283 => simp [ha] at hs
    | line_317 fb => simp [ha] at hs
    | line_290 =>
      simp only [ha, Option.some.injEq] at hs
      simp only [ha, ArbiterPc.pending] at hflight
      have hcases := loop_body_cases now sys.framebuffer_get_queue_ retained sys.camera
      generalize loop_body now sys.framebuffer_get_queue_ retained sys.camera = r at hcases hs
      subst hs
      have hout : sys.producer.outstanding ≤ 1 := by
        cases sys.producer <;> simp [ProducerPc.outstanding]
      rcases hcases with ⟨h1, h2, h3⟩ | ⟨hq, h1, h2, h3⟩ | ⟨hq, h1, h2, h3⟩ |
        ⟨fb, hq, h1, h2, h3⟩
      · simp only [balanced, in_flight, h1, h2, h3, ArbiterPc.pending]
        exact ⟨hcount, by simpa using hflight⟩
      · simp only [balanced, in_flight, h1, h2, h3, hq, ArbiterPc.pending, occupied]
        simp only [hq, occupied] at hflight
        exact ⟨hcount, by simpa using hflight⟩
      · simp only [balanced, in_flight, h1, h2, h3, hq, ArbiterPc.pending, occupied]
        simp only [hq, occupied] at hflight
        refine ⟨hcount, ?_⟩
        simp only [if_true]
        omega
      · simp only [hq, occupied] at hflight
        have hcur : sys.camera.current_image_ = none := by
          cases hc : sys.camera.current_image_ with
          | none => rfl
          | some p => simp only [hc] at hflight; omega
        obtain ⟨p, hp⟩ := Option.isSome_iff_exists.mp h3
        simp only [hcur] at hflight
        simp only [balanced, in_flight, h1, h2, hp, ArbiterPc.pending, occupied]
        refine ⟨hcount, ?_⟩
        simp only [if_true]
        omega
  | tick_forward =>
    simp only [step] at hs
    cases ha : sys.arbiter with
    | line_283 => simp [ha] at hs
    | line_290 => simp [ha] at hs
    | line_317 fb =>
      simp only [ha, xQueueSend] at hs
      simp only [ha, ArbiterPc.pending] at hflight
      cases hq : sys.framebuffer_return_queue_ with
      | some x => simp [hq] at hs
      | none =>
        simp only [hq, Option.map_some', Option.some.injEq] at hs
        subst hs
        simp only [hq, occupied] at hflight
        simp only [balanced, in_flight, occupied, ArbiterPc.pending]
        omega
  | request_image r =>
    simp only [step, Option.some.injEq] at hs
    subst hs
    exact ⟨hcount, hflight⟩
  | start_stream r =>
    simp only [step, Option.some.injEq] at hs
    subst hs
    exact ⟨hcount, hflight⟩
  | stop_stream r =>
    simp only [step, Option.some.injEq] at hs
    subst hs
    exact ⟨hcount, hflight⟩
  | drop =>
    simp only [step, Option.some.injEq] at hs
    subst hs
    refine ⟨hcount, ?_⟩
    simp only [in_flight, occupied_drop_reference]
    exact hflight
  | share =>
    simp only [step, Option.some.injEq] at hs
    subst hs
    refine ⟨hcount, ?_⟩
    simp only [in_flight, occupied_share_reference]
    exact hflight

/-- Every sequence of moves keeps the system balanced. -/
theorem steps_balanced (moves : List Move) :
    ∀ sys sys', balanced sys → steps moves sys = some sys' → balanced sys' := by
  induction moves with
  | nil =>
    intro sys sys' h hs
    simp only [steps, Option.some.injEq] at hs
    exact hs ▸ h
  | cons m ms ih =>
    intro sys sys' h hs
    simp only [steps] at hs
    cases hm : step m sys with
    | none => simp [hm] at hs
    | some mid =>
      rw [hm] at hs
      exact ih mid sys' (step_balanced m sys mid h hm) hs

/-- C2. In every state the producer task, the arbiter and the callers reach from `setup`,
the buffers given back to the frame source never outnumber the buffers acquired, at most
one acquired buffer is not yet given back, and at most one image is current; more
precisely at most one buffer is in a queue, in the current image or about to be forwarded. -/
theorem single_in_flight (now max_update_interval idle_update_interval : Nat)
    (moves : List Move) (sys : System)
    (h : steps moves (setup now max_update_interval idle_update_interval) = some sys) :
    sys.released ≤ sys.acquired ∧ sys.acquired ≤ sys.released + 1 ∧
      current_images sys ≤ 1 ∧ in_flight sys ≤ 1 := by
  have hb := steps_balanced moves _ sys
    (balanced_setup now max_update_interval idle_update_interval) h
  obtain ⟨hcount, hflight⟩ := hb
  have hout : sys.producer.outstanding ≤ 1 := by
    cases sys.producer <;> simp [ProducerPc.outstanding]
  have hcur : current_images sys ≤ in_flight sys := by
    unfold current_images in_flight; omega
  omega

/-- C2 on a concrete run: a frame is acquired, published to a subscriber that keeps it,
dropped, sent back and received by the producer task. -/
theorem single_in_flight_witness :
    steps [Move.producer (some ⟨7, 100, 4, 4⟩), Move.producer none,
        Move.request_image CameraRequester.WEB_REQUESTER, Move.tick_return,
        Move.tick_body 5000 1, Move.drop, Move.tick_return, Move.producer none]
        (setup 0 1000 15000) = some demo_system ∧
      (demo_system.released ≤ demo_system.acquired ∧
        demo_system.acquired ≤ demo_system.released + 1 ∧
        current_images demo_system ≤ 1 ∧ in_flight demo_system ≤ 1) := by
  have h : steps [Move.producer (some ⟨7, 100, 4, 4⟩), Move.producer none,
      Move.request_image CameraRequester.WEB_REQUESTER, Move.tick_return,
      Move.tick_body 5000 1, Move.drop, Move.tick_return, Move.producer none]
      (setup 0 1000 15000) = some demo_system := by decide
  exact ⟨h, single_in_flight 0 1000 15000 _ demo_system h⟩

/-! ## Lemmas on the masks -/

/-- The bit of a requester fits the `uint8_t` masks. -/
theorem requester_bit_lt (c : CameraRequester) : 1 <<< c.toNat < 2 ^ 8 := by
  cases c <;> decide

/-- The bits of the mask of one requester. -/
theorem testBit_requester_bit (c : CameraRequester) (i : Nat) :
    (1 <<< c.toNat).testBit i = decide (c.toNat = i) := by
  rw [Nat.one_shiftLeft, Nat.testBit_two_pow]

/-- Setting a requester bit in a `uint8_t` mask does not overflow. -/
theorem or_bit_mod (m : Nat) (c : CameraRequester) (hm : m < 2 ^ 8) :
    (m ||| 1 <<< c.toNat) % 2 ^ 8 = m ||| 1 <<< c.toNat :=
  Nat.mod_eq_of_lt (Nat.or_lt_two_pow hm (requester_bit_lt c))

/-- Masking a `uint8_t` mask does not overflow. -/
theorem and_mod (m k : Nat) (hm : m < 2 ^ 8) : (m &&& k) % 2 ^ 8 = m &&& k :=
  Nat.mod_eq_of_lt (Nat.lt_of_le_of_lt Nat.and_le_left hm)

/-- The bits of the complement of the mask of one requester, among the low 32 bits. -/
theorem testBit_not_requester_bit (c : CameraRequester) (i : Nat) :
    (not_u32 (1 <<< c.toNat)).testBit i = (decide (i < 32) && !decide (c.toNat = i)) := by
  have hlt : 1 <<< c.toNat < 2 ^ 32 := by cases c <;> decide
  have h : not_u32 (1 <<< c.toNat) = 2 ^ 32 - (1 <<< c.toNat + 1) := by
    unfold not_u32
    rw [Nat.mod_eq_of_lt hlt]
    omega
  rw [h, Nat.testBit_two_pow_sub_succ hlt, testBit_requester_bit]

/-- A bit that is set in a `uint8_t` is one of the low eight. -/
theorem lt_of_testBit (m i : Nat) (hm : m < 2 ^ 8) (h : m.testBit i = true) : i < 8 := by
  by_contra hge
  have hle : 2 ^ 8 ≤ 2 ^ i := Nat.pow_le_pow_right (by decide) (by omega)
  have := Nat.testBit_lt_two_pow (Nat.lt_of_lt_of_le hm hle)
  rw [this] at h
  exact Bool.false_ne_true h

/-- The test of `was_requested_by` reads one bit of the mask. -/
theorem and_bit_ne_zero (m i : Nat) : ((m &&& 1 <<< i) != 0) = m.testBit i := by
  rw [Nat.one_shiftLeft]
  cases h : m.testBit i with
  | true =>
    have hb : (m &&& 2 ^ i).testBit i = true := by
      rw [Nat.testBit_and, h, Nat.testBit_two_pow_self]; rfl
    have hne : m &&& 2 ^ i ≠ 0 := by
      intro h0
      rw [h0, Nat.zero_testBit] at hb
      exact Bool.false_ne_true hb
    simpa using hne
  | false =>
    have h0 : m &&& 2 ^ i = 0 := by
      apply Nat.zero_of_testBit_eq_false
      intro j
      rw [Nat.testBit_and, Nat.testBit_two_pow]
      by_cases hij : i = j
      · subst hij; simp [h]
      · simp [hij]
    simp [h0]

/-! ## Lemmas on the whole tick -/

/-- The release check changes nothing but `current_image_`. -/
theorem loop_return_fields (s : ESP32Camera) :
    (loop_return s).1.single_requesters_ = s.single_requesters_ ∧
    (loop_return s).1.stream_requesters_ = s.stream_requesters_ ∧
    (loop_return s).1.last_update_ = s.last_update_ ∧
    (loop_return s).1.last_idle_request_ = s.last_idle_request_ ∧
    (loop_return s).1.max_update_interval_ = s.max_update_interval_ ∧
    (loop_return s).1.idle_update_interval_ = s.idle_update_interval_ := by
  rw [loop_return_eq]
  cases s.current_image_ with
  | none => simp
  | some p => by_cases ho : p.others = 0 <;> simp [ho]

/-- The release check publishes nothing and receives nothing. -/
theorem loop_return_events (s : ESP32Camera) :
    published (loop_return s).2 = false ∧ fetched (loop_return s).2 = false := by
  rw [loop_return_eq]
  cases s.current_image_ with
  | none => simp [published, fetched]
  | some p => by_cases ho : p.others = 0 <;> simp [ho, published, fetched]

/-- After the release check the camera holds no image, or one that a subscriber holds. -/
theorem loop_return_use_count (s : ESP32Camera) :
    use_count (loop_return s).1.current_image_ ≠ 1 := by
  rw [loop_return_eq]
  cases h : s.current_image_ with
  | none => simp [h, use_count]
  | some p => by_cases ho : p.others = 0 <;> simp [ho, h, use_count]

/-- The state at line 297, field by field. -/
theorem before_fetch_fields (now : Nat) (s : ESP32Camera) :
    (before_fetch now s).single_requesters_ =
      (if idle_due now s then (s.single_requesters_ ||| 1 <<< CameraRequester.IDLE.toNat) % 2 ^ 8
       else s.single_requesters_) ∧
    (before_fetch now s).stream_requesters_ = s.stream_requesters_ ∧
    (before_fetch now s).last_update_ = s.last_update_ ∧
    (before_fetch now s).last_idle_request_ =
      (if idle_due now s then now else s.last_idle_request_) ∧
    (before_fetch now s).max_update_interval_ = s.max_update_interval_ ∧
    (before_fetch now s).idle_update_interval_ = s.idle_update_interval_ ∧
    (before_fetch now s).current_image_ = (loop_return s).1.current_image_ := by
  obtain ⟨h1, h2, h3, h4, h5, h6⟩ := loop_return_fields s
  unfold before_fetch loop_idle idle_due
  rw [h4, h6]
  by_cases hd : s.idle_update_interval_ ≠ 0 ∧
      sub_u64 now s.last_idle_request_ > s.idle_update_interval_
  · have hdec := decide_eq_true hd
    simp only [if_pos hd, hdec, if_true, request_image]
    refine ⟨?_, ?_, ?_, ?_, ?_, ?_, ?_⟩ <;> simp [h1, h2, h3, h5]
  · have hdec := decide_eq_false hd
    simp only [if_neg hd, hdec]
    refine ⟨?_, ?_, ?_, ?_, ?_, ?_, ?_⟩ <;> simp [h1, h2, h3, h4, h5, h6]

/-- A tick is its release check, then the idle request, then the fetch when the gates
pass. -/
theorem loop_eq (now : Nat) (ready : Option FbPtr) (retained : Nat) (s : ESP32Camera) :
    loop now ready retained s =
      if gates_pass now s then
        ((loop_fetch now ready retained (before_fetch now s)).1,
          (loop_return s).2 ++ (loop_fetch now ready retained (before_fetch now s)).2)
      else (before_fetch now s, (loop_return s).2) := by
  unfold loop loop_body gates_pass before_fetch
  by_cases h : loop_should_fetch now (loop_idle now (loop_return s).1) = true
  · simp [h]
  · simp [h]

/-- A tick publishes exactly when its gates pass and the get queue holds a valid frame. -/
theorem published_iff (now : Nat) (ready : Option FbPtr) (retained : Nat) (s : ESP32Camera) :
    published (loop now ready retained s).2 = true ↔
      gates_pass now s = true ∧ ∃ fb, ready = some (some fb) := by
  have hr := (loop_return_events s).1
  unfold published at hr ⊢
  rw [loop_eq]
  by_cases hg : gates_pass now s = true
  · rcases ready with _ | _ | fb
    · simp [hg, hr, loop_fetch]
    · simp [hg, hr, loop_fetch]
    · simp [hg, hr, loop_fetch]
  · simp [hg, hr]

/-- What a publishing tick leaves and does. -/
theorem loop_publish (now : Nat) (fb : camera_fb_t) (retained : Nat) (s : ESP32Camera)
    (hg : gates_pass now s = true) :
    loop now (some (some fb)) retained s =
      ({ before_fetch now s with
          current_image_ := some
            { image := CameraImage.new (some fb)
                ((before_fetch now s).single_requesters_ |||
                  (before_fetch now s).stream_requesters_),
              others := retained },
          last_update_ := now,
          single_requesters_ := 0 },
       (loop_return s).2 ++
        [Event.receive_get (some (some fb)),
         Event.new_image (CameraImage.new (some fb)
            ((before_fetch now s).single_requesters_ |||
              (before_fetch now s).stream_requesters_))]) := by
  rw [loop_eq]
  simp [hg, loop_fetch]

/-- What a tick that does not publish leaves: the state of line 297. -/
theorem loop_no_publish (now : Nat) (ready : Option FbPtr) (retained : Nat) (s : ESP32Camera)
    (hp : published (loop now ready retained s).2 = false) :
    (loop now ready retained s).1 = before_fetch now s := by
  have hiff := published_iff now ready retained s
  rw [loop_eq]
  by_cases hg : gates_pass now s = true
  · rcases ready with _ | _ | fb
    · simp [hg, loop_fetch]
    · simp [hg, loop_fetch]
    · have := hiff.mpr ⟨hg, fb, rfl⟩
      rw [this] at hp
      exact absurd hp (by decide)
  · simp [hg]

/-- The release check calls no image callback. -/
theorem new_image_not_mem_loop_return (img : CameraImage) (s : ESP32Camera) :
    Event.new_image img ∉ (loop_return s).2 := by
  rw [loop_return_eq]
  cases s.current_image_ with
  | none => simp
  | some p => by_cases ho : p.others = 0 <;> simp [ho]

/-- The images a tick hands to the image callbacks. -/
theorem new_image_mem_iff (img : CameraImage) (now : Nat) (ready : Option FbPtr)
    (retained : Nat) (s : ESP32Camera) :
    Event.new_image img ∈ (loop now ready retained s).2 ↔
      gates_pass now s = true ∧ ∃ fb, ready = some (some fb) ∧
        img = CameraImage.new (some fb)
          ((before_fetch now s).single_requesters_ ||| (before_fetch now s).stream_requesters_) := by
  have hr := new_image_not_mem_loop_return img s
  rw [loop_eq]
  by_cases hg : gates_pass now s = true
  · rcases ready with _ | _ | fb
    · simp [hg, hr, loop_fetch]
    · simp [hg, hr, loop_fetch]
    · simp [hg, hr, loop_fetch]
  · simp [hg, hr]

/-- When the gates pass, the camera holds no image at line 297. -/
theorem current_none_of_gates_pass (now : Nat) (s : ESP32Camera)
    (hg : gates_pass now s = true) : (before_fetch now s).current_image_ = none := by
  have h1 := loop_return_use_count s
  have h7 := (before_fetch_fields now s).2.2.2.2.2.2
  unfold gates_pass loop_should_fetch at hg
  rw [h7] at hg ⊢
  cases hc : (loop_return s).1.current_image_ with
  | none => rfl
  | some p =>
    rw [hc] at hg h1
    simp only [use_count] at hg h1
    split_ifs at hg
    omega

/-! ## C3: the single-shot mask is cleared, the stream mask persists -/

/-- C3. A tick publishes exactly when all its gates pass and it receives a valid buffer
from the get queue. After a tick that publishes, `single_requesters_` is 0 and
`stream_requesters_` is what it was before the tick. A tick that does not publish clears
no bit of `single_requesters_` and leaves `stream_requesters_` as it was. -/
theorem single_shot_clears (now : Nat) (ready : Option FbPtr) (retained : Nat)
    (s : ESP32Camera) (hs : s.single_requesters_ < 2 ^ 8) :
    (published (loop now ready retained s).2 = true ↔
      gates_pass now s = true ∧ ∃ fb, ready = some (some fb)) ∧
    (published (loop now ready retained s).2 = true →
      (loop now ready retained s).1.single_requesters_ = 0 ∧
      (loop now ready retained s).1.stream_requesters_ = s.stream_requesters_) ∧
    (published (loop now ready retained s).2 = false →
      (∀ i, s.single_requesters_.testBit i = true →
        (loop now ready retained s).1.single_requesters_.testBit i = true) ∧
      (loop now ready retained s).1.stream_requesters_ = s.stream_requesters_) := by
  obtain ⟨f1, f2, -⟩ := before_fetch_fields now s
  refine ⟨published_iff now ready retained s, ?_, ?_⟩
  · intro hp
    obtain ⟨hg, fb, hfb⟩ := (published_iff now ready retained s).mp hp
    subst hfb
    rw [loop_publish now fb retained s hg]
    exact ⟨rfl, f2⟩
  · intro hp
    rw [loop_no_publish now ready retained s hp, f1, f2]
    refine ⟨?_, rfl⟩
    intro i hi
    split_ifs
    · rw [or_bit_mod _ _ hs, Nat.testBit_or, hi]; rfl
    · exact hi

/-- C3 at concrete states: a publishing tick with `single_requesters_ = 4` and
`stream_requesters_ = 2`, and a tick that finds the get queue empty. -/
theorem single_shot_clears_witness :
    ((loop 5000 (some (some ⟨7, 100, 4, 4⟩)) 1
        { single_requesters_ := 4, stream_requesters_ := 2 }).1.single_requesters_ = 0 ∧
      (loop 5000 (some (some ⟨7, 100, 4, 4⟩)) 1
        { single_requesters_ := 4, stream_requesters_ := 2 }).1.stream_requesters_ = 2) ∧
    (loop 5000 none 1
        { single_requesters_ := 4, stream_requesters_ := 2 }).1.stream_requesters_ = 2 :=
  ⟨(single_shot_clears 5000 (some (some ⟨7, 100, 4, 4⟩)) 1
      { single_requesters_ := 4, stream_requesters_ := 2 } (by decide)).2.1 (by decide),
   ((single_shot_clears 5000 none 1
      { single_requesters_ := 4, stream_requesters_ := 2 } (by decide)).2.2 (by decide)).2⟩

/-! ## Lemmas on the clocks -/

/-- The intervals and time stamps after a tick. -/
theorem loop_fields (now : Nat) (ready : Option FbPtr) (retained : Nat) (s : ESP32Camera) :
    (loop now ready retained s).1.max_update_interval_ = s.max_update_interval_ ∧
    (loop now ready retained s).1.idle_update_interval_ = s.idle_update_interval_ ∧
    (loop now ready retained s).1.last_idle_request_ =
      (if idle_due now s then now else s.last_idle_request_) ∧
    (loop now ready retained s).1.last_update_ =
      (if published (loop now ready retained s).2 then now else s.last_update_) := by
  obtain ⟨-, -, f3, f4, f5, f6, -⟩ := before_fetch_fields now s
  cases hp : published (loop now ready retained s).2 with
  | true =>
    obtain ⟨hg, fb, hfb⟩ := (published_iff now ready retained s).mp hp
    subst hfb
    rw [loop_publish now fb retained s hg]
    exact ⟨f5, f6, f4, by simp⟩
  | false =>
    rw [loop_no_publish now ready retained s hp]
    exact ⟨f5, f6, f4, by simp [f3]⟩

/-- The requester calls and the reference moves leave the intervals and time stamps. -/
theorem apply_fields (a : Action) (s : ESP32Camera) (ha : a.isTick = false) :
    (a.apply s).1.max_update_interval_ = s.max_update_interval_ ∧
    (a.apply s).1.idle_update_interval_ = s.idle_update_interval_ ∧
    (a.apply s).1.last_idle_request_ = s.last_idle_request_ ∧
    (a.apply s).1.last_update_ = s.last_update_ := by
  cases a with
  | tick now ready retained => simp [Action.isTick] at ha
  | request_image r => exact ⟨rfl, rfl, rfl, rfl⟩
  | start_stream r => exact ⟨rfl, rfl, rfl, rfl⟩
  | stop_stream r => exact ⟨rfl, rfl, rfl, rfl⟩
  | drop =>
    simp only [Action.apply, drop_reference]
    cases s.current_image_ with
    | none => exact ⟨rfl, rfl, rfl, rfl⟩
    | some p => by_cases ho : 0 < p.others <;> simp [ho]
  | share =>
    simp only [Action.apply, share_reference]
    cases s.current_image_ with
    | none => exact ⟨rfl, rfl, rfl, rfl⟩
    | some p => by_cases ho : 0 < p.others <;> simp [ho]

/-- A tick fetches only when more than `max_update_interval_` has elapsed since
`last_update_`. -/
theorem elapsed_of_gates_pass (now : Nat) (s : ESP32Camera) (hg : gates_pass now s = true) :
    s.max_update_interval_ < sub_u64 now s.last_update_ := by
  obtain ⟨-, -, f3, -, f5, -, -⟩ := before_fetch_fields now s
  unfold gates_pass loop_should_fetch at hg
  rw [f3, f5] at hg
  split_ifs at hg
  omega

/-- A tick that fetches has passed the gates. -/
theorem fetched_iff (now : Nat) (ready : Option FbPtr) (retained : Nat) (s : ESP32Camera) :
    fetched (loop now ready retained s).2 = true ↔ gates_pass now s = true := by
  have hr := (loop_return_events s).2
  unfold fetched at hr ⊢
  rw [loop_eq]
  by_cases hg : gates_pass now s = true
  · rcases ready with _ | _ | fb
    · simp [hg, hr, loop_fetch]
    · simp [hg, hr, loop_fetch]
    · simp [hg, hr, loop_fetch]
  · simp [hg, hr]

/-- From a state whose `last_update_` is not after any later tick, every publishing tick is
more than `R` after `last_update_`, and any two publishing ticks are more than `R` apart. -/
theorem publish_clocks_after (R : Nat) (acts : List Action) :
    ∀ s : ESP32Camera, s.max_update_interval_ = R →
      (∀ t ∈ clocks acts, s.last_update_ ≤ t ∧ t < 2 ^ 64) →
      (clocks acts).Pairwise (fun a b => a ≤ b) →
      (∀ p ∈ publish_clocks acts s, s.last_update_ + R < p) ∧
        (publish_clocks acts s).Pairwise (fun a b => a + R < b) := by
  induction acts with
  | nil => intro s _ _ _; simp [publish_clocks]
  | cons a as ih =>
    intro s hR hb hsorted
    cases a with
    | tick now ready retained =>
      simp only [clocks, List.mem_cons, forall_eq_or_imp, List.pairwise_cons] at hb hsorted
      obtain ⟨⟨hlo, hnow⟩, hrest⟩ := hb
      obtain ⟨hle, hsorted⟩ := hsorted
      obtain ⟨g1, -, -, g4⟩ := loop_fields now ready retained s
      simp only [publish_clocks, Action.apply]
      cases hp : published (loop now ready retained s).2 with
      | true =>
        rw [hp] at g4
        obtain ⟨hg, -⟩ := (published_iff now ready retained s).mp hp
        have hel := elapsed_of_gates_pass now s hg
        have hgap : s.last_update_ + R < now := by
          unfold sub_u64 at hel
          rw [hR] at hel
          omega
        obtain ⟨ih1, ih2⟩ := ih (loop now ready retained s).1 (g1.trans hR)
          (fun t ht => by rw [g4]; exact ⟨hle t ht, (hrest t ht).2⟩) hsorted
        simp only [if_true, List.mem_cons, forall_eq_or_imp, List.pairwise_cons]
        simp only [g4, if_true] at ih1
        refine ⟨⟨hgap, fun p hp => ?_⟩, fun p hp => ih1 p hp, ih2⟩
        have := ih1 p hp
        omega
      | false =>
        rw [hp] at g4
        simp only [Bool.false_eq_true, if_false] at g4 ⊢
        exact g4 ▸ ih (loop now ready retained s).1 (g1.trans hR)
          (fun t ht => by rw [g4]; exact hrest t ht) hsorted
    | request_image r =>
      exact ih ((Action.request_image r).apply s).1 hR hb hsorted
    | start_stream r =>
      exact ih ((Action.start_stream r).apply s).1 hR hb hsorted
    | stop_stream r =>
      exact ih ((Action.stop_stream r).apply s).1 hR hb hsorted
    | drop =>
      obtain ⟨g1, -, -, g4⟩ := apply_fields Action.drop s rfl
      simp only [publish_clocks]
      exact g4 ▸ ih (Action.drop.apply s).1 (g1.trans hR)
        (fun t ht => by rw [g4]; exact hb t ht) hsorted
    | share =>
      obtain ⟨g1, -, -, g4⟩ := apply_fields Action.share s rfl
      simp only [publish_clocks]
      exact g4 ▸ ih (Action.share.apply s).1 (g1.trans hR)
        (fun t ht => by rw [g4]; exact hb t ht) hsorted

/-- Any two publishing ticks of a sequence with non-decreasing clock readings are more
than `R` apart. -/
theorem publish_clocks_pairwise (R : Nat) (acts : List Action) :
    ∀ s : ESP32Camera, s.max_update_interval_ = R →
      (∀ t ∈ clocks acts, t < 2 ^ 64) →
      (clocks acts).Pairwise (fun a b => a ≤ b) →
      (publish_clocks acts s).Pairwise (fun a b => a + R < b) := by
  induction acts with
  | nil => intro s _ _ _; simp [publish_clocks]
  | cons a as ih =>
    intro s hR hb hsorted
    cases a with
    | tick now ready retained =>
      simp only [clocks, List.mem_cons, forall_eq_or_imp, List.pairwise_cons] at hb hsorted
      obtain ⟨hnow, hrest⟩ := hb
      obtain ⟨hle, hsorted⟩ := hsorted
      obtain ⟨g1, -, -, g4⟩ := loop_fields now ready retained s
      simp only [publish_clocks, Action.apply]
      cases hp : published (loop now ready retained s).2 with
      | true =>
        rw [hp] at g4
        simp only [if_true] at g4
        obtain ⟨h1, h2⟩ := publish_clocks_after R as (loop now ready retained s).1
          (g1.trans hR) (fun t ht => by rw [g4]; exact ⟨hle t ht, hrest t ht⟩) hsorted
        rw [g4] at h1
        simp only [if_true, List.pairwise_cons]
        exact ⟨h1, h2⟩
      | false =>
        simp only [Bool.false_eq_true, if_false]
        exact ih (loop now ready retained s).1 (g1.trans hR) hrest hsorted
    | request_image r => exact ih ((Action.request_image r).apply s).1 hR hb hsorted
    | start_stream r => exact ih ((Action.start_stream r).apply s).1 hR hb hsorted
    | stop_stream r => exact ih ((Action.stop_stream r).apply s).1 hR hb hsorted
    | drop =>
      exact ih (Action.drop.apply s).1 ((apply_fields Action.drop s rfl).1.trans hR) hb hsorted
    | share =>
      exact ih (Action.share.apply s).1 ((apply_fields Action.share s rfl).1.trans hR) hb
        hsorted

/-! ## C4: rate limiting -/

/-- C4. Along every sequence of ticks, requester calls and reference moves whose ticks read
non-decreasing `uint64_t` clock values, with `max_update_interval_ = R`, the clock readings
of two successive publishing ticks differ by at least `R` (and indeed by more than `R`);
and a tick at which the time elapsed since `last_update_` is at most
`max_update_interval_` neither calls `xQueueReceive` nor publishes. -/
theorem rate_limit (R : Nat) (acts : List Action) (s : ESP32Camera)
    (hR : s.max_update_interval_ = R)
    (hsorted : (clocks acts).Chain' (fun a b => a ≤ b))
    (hbound : ∀ t ∈ clocks acts, t < 2 ^ 64) :
    (publish_clocks acts s).Chain' (fun a b => R ≤ b - a ∧ a + R < b) ∧
    (∀ now ready retained (s0 : ESP32Camera),
      sub_u64 now s0.last_update_ ≤ s0.max_update_interval_ →
      fetched (loop now ready retained s0).2 = false ∧
      published (loop now ready retained s0).2 = false) := by
  constructor
  · have hp := publish_clocks_pairwise R acts s hR hbound (List.chain'_iff_pairwise.mp hsorted)
    exact (hp.imp (fun {a b} h => ⟨by omega, h⟩)).chain'
  · intro now ready retained s0 hel
    have hg : gates_pass now s0 = false := by
      cases h : gates_pass now s0 with
      | false => rfl
      | true => have := elapsed_of_gates_pass now s0 h; omega
    constructor
    · cases h : fetched (loop now ready retained s0).2 with
      | false => rfl
      | true => rw [(fetched_iff now ready retained s0).mp h] at hg; exact absurd hg (by decide)
    · cases h : published (loop now ready retained s0).2 with
      | false => rfl
      | true =>
        rw [((published_iff now ready retained s0).mp h).1] at hg
        exact absurd hg (by decide)

/-- C4 on a concrete run with `max_update_interval_ = 1000` and a stream requester: of the
ticks at 5000, 5500 and 7000 the first and the last publish. -/
theorem rate_limit_witness :
    (publish_clocks
      [Action.tick 5000 (some (some ⟨7, 100, 4, 4⟩)) 0,
       Action.tick 5500 (some (some ⟨7, 100, 4, 4⟩)) 0,
       Action.tick 7000 (some (some ⟨7, 100, 4, 4⟩)) 0]
      { stream_requesters_ := 2 }).Chain' (fun a b => 1000 ≤ b - a ∧ a + 1000 < b) :=
  (rate_limit 1000
      [Action.tick 5000 (some (some ⟨7, 100, 4, 4⟩)) 0,
       Action.tick 5500 (some (some ⟨7, 100, 4, 4⟩)) 0,
       Action.tick 7000 (some (some ⟨7, 100, 4, 4⟩)) 0]
      { stream_requesters_ := 2 } rfl (by simp [clocks]) (by simp [clocks])).1

/-! ## C5: requester tagging -/

/-- C5. Every image a tick hands to the image callbacks becomes the current image and
carries `single_requesters_ | stream_requesters_` as the two masks stand at line 320, and
`was_requested_by(c)` on any image is bit `c` of its mask. From empty masks, after
`request_image(WEB_REQUESTER)`, a tick that requests no idle image and publishes hands over
an image requested by `WEB_REQUESTER` and not by `API_REQUESTER`. -/
theorem requester_tagging (now : Nat) (ready : Option FbPtr) (retained : Nat)
    (s : ESP32Camera) (h1 : s.single_requesters_ < 2 ^ 8) (h2 : s.stream_requesters_ < 2 ^ 8) :
    (∀ img, Event.new_image img ∈ (loop now ready retained s).2 →
      img.requesters_ =
        (before_fetch now s).single_requesters_ ||| (before_fetch now s).stream_requesters_ ∧
      (loop now ready retained s).1.current_image_ = some { image := img, others := retained } ∧
      ∀ c : CameraRequester, img.was_requested_by c =
        ((before_fetch now s).single_requesters_ |||
          (before_fetch now s).stream_requesters_).testBit c.toNat) ∧
    (∀ (img : CameraImage) (c : CameraRequester),
      img.was_requested_by c = img.requesters_.testBit c.toNat) ∧
    (s.single_requesters_ = 0 → s.stream_requesters_ = 0 → idle_due now s = false →
      published (loop now ready retained
        (request_image CameraRequester.WEB_REQUESTER s)).2 = true →
      ∃ img, Event.new_image img ∈ (loop now ready retained
          (request_image CameraRequester.WEB_REQUESTER s)).2 ∧
        img.was_requested_by CameraRequester.WEB_REQUESTER = true ∧
        img.was_requested_by CameraRequester.API_REQUESTER = false) := by
  have hbit : ∀ (img : CameraImage) (c : CameraRequester),
      img.was_requested_by c = img.requesters_.testBit c.toNat :=
    fun img c => and_bit_ne_zero img.requesters_ c.toNat
  refine ⟨?_, hbit, ?_⟩
  · intro img himg
    obtain ⟨hg, fb, hfb, hi⟩ := (new_image_mem_iff img now ready retained s).mp himg
    obtain ⟨f1, f2, -⟩ := before_fetch_fields now s
    have hs1 : (before_fetch now s).single_requesters_ < 2 ^ 8 := by
      rw [f1]; split_ifs
      · exact Nat.mod_lt _ (by decide)
      · exact h1
    have hs2 : (before_fetch now s).stream_requesters_ < 2 ^ 8 := by rw [f2]; exact h2
    have hmask : img.requesters_ =
        (before_fetch now s).single_requesters_ ||| (before_fetch now s).stream_requesters_ := by
      rw [hi]
      exact Nat.mod_eq_of_lt (Nat.or_lt_two_pow hs1 hs2)
    refine ⟨hmask, ?_, fun c => by rw [hbit, hmask]⟩
    subst hfb
    rw [loop_publish now fb retained s hg, hi]
  · intro hs0 hm0 hidle hp
    obtain ⟨hg, fb, hfb⟩ := (published_iff now ready retained _).mp hp
    obtain ⟨f1, f2, -⟩ := before_fetch_fields now (request_image CameraRequester.WEB_REQUESTER s)
    have hidle2 : idle_due now (request_image CameraRequester.WEB_REQUESTER s) = false := hidle
    have e1 : (before_fetch now
        (request_image CameraRequester.WEB_REQUESTER s)).single_requesters_ = 4 := by
      rw [f1, hidle2]
      simp only [request_image, hs0]
      decide
    have e2 : (before_fetch now
        (request_image CameraRequester.WEB_REQUESTER s)).stream_requesters_ = 0 := by
      rw [f2]
      exact hm0
    refine ⟨_, (new_image_mem_iff _ now ready retained _).mpr ⟨hg, fb, hfb, rfl⟩, ?_, ?_⟩
    · rw [e1, e2]
      simp only [CameraImage.was_requested_by, CameraImage.new, CameraRequester.toNat]
      decide
    · rw [e1, e2]
      simp only [CameraImage.was_requested_by, CameraImage.new, CameraRequester.toNat]
      decide

/-- C5 on the scenario of the specification, from the default state at clock 5000. -/
theorem requester_tagging_witness :
    ∃ img, Event.new_image img ∈ (loop 5000 (some (some ⟨7, 100, 4, 4⟩)) 1
          (request_image CameraRequester.WEB_REQUESTER {})).2 ∧
        img.was_requested_by CameraRequester.WEB_REQUESTER = true ∧
        img.was_requested_by CameraRequester.API_REQUESTER = false :=
  (requester_tagging 5000 (some (some ⟨7, 100, 4, 4⟩)) 1 {} (by decide) (by decide)).2.2
    rfl rfl (by decide) (by decide)

/-! ## C6: an invalid frame is sent back -/

/-- C6, the claim as stated fails: with the default intervals and a stream requester, the
tick at clock 20000 passes its gates, receives a null buffer and forwards it, and its idle
request has changed `single_requesters_` from 0 to 1 (and `last_idle_request_`). -/
theorem null_recycling_changes_single :
    gates_pass 20000 { stream_requesters_ := 2 } = true ∧
    (loop 20000 (some none) 0 { stream_requesters_ := 2 }).2 =
      [Event.receive_get (some none), Event.send_return none] ∧
    (loop 20000 (some none) 0 { stream_requesters_ := 2 }).1.single_requesters_ ≠
      ({ stream_requesters_ := 2 } : ESP32Camera).single_requesters_ := by
  decide

/-- C6, amended. A tick that passes all its gates and receives a null buffer sends that
buffer on the return queue as its last action, calls no image callback, leaves
`current_image_` empty and leaves `stream_requesters_` and `last_update_` as they were;
`single_requesters_` is as it was when the tick requests no idle image, and has gained the
`IDLE` bit and lost none when it does. -/
theorem null_recycling (now : Nat) (retained : Nat) (s : ESP32Camera)
    (hg : gates_pass now s = true) :
    (loop now (some none) retained s).2 =
      (loop_return s).2 ++ [Event.receive_get (some none), Event.send_return none] ∧
    published (loop now (some none) retained s).2 = false ∧
    (∀ img, Event.new_image img ∉ (loop now (some none) retained s).2) ∧
    (loop now (some none) retained s).1.current_image_ = none ∧
    (loop now (some none) retained s).1.stream_requesters_ = s.stream_requesters_ ∧
    (loop now (some none) retained s).1.last_update_ = s.last_update_ ∧
    (loop now (some none) retained s).1.single_requesters_ =
      (if idle_due now s then
        (s.single_requesters_ ||| 1 <<< CameraRequester.IDLE.toNat) % 2 ^ 8
       else s.single_requesters_) := by
  obtain ⟨f1, f2, f3, -⟩ := before_fetch_fields now s
  have hcur := current_none_of_gates_pass now s hg
  have hnp : published (loop now (some none) retained s).2 = false := by
    cases h : published (loop now (some none) retained s).2 with
    | false => rfl
    | true =>
      obtain ⟨-, fb, hfb⟩ := (published_iff now (some none) retained s).mp h
      simp at hfb
  have hst := loop_no_publish now (some none) retained s hnp
  refine ⟨?_, hnp, ?_, ?_, ?_, ?_, ?_⟩
  · rw [loop_eq]; simp [hg, loop_fetch]
  · intro img himg
    obtain ⟨-, fb, hfb, -⟩ := (new_image_mem_iff img now (some none) retained s).mp himg
    simp at hfb
  · rw [hst]; exact hcur
  · rw [hst]; exact f2
  · rw [hst]; exact f3
  · rw [hst]; exact f1

/-- C6, amended, at the state of the counterexample and at a clock reading before the idle
request is due. -/
theorem null_recycling_witness :
    (loop 20000 (some none) 0 { stream_requesters_ := 2 }).1.single_requesters_ = 1 ∧
    (loop 5000 (some none) 0 { stream_requesters_ := 2 }).1.single_requesters_ = 0 :=
  ⟨(null_recycling 20000 0 { stream_requesters_ := 2 } (by decide)).2.2.2.2.2.2,
   (null_recycling 5000 0 { stream_requesters_ := 2 } (by decide)).2.2.2.2.2.2⟩

/-! ## C7: idle requests -/

/-- From a state whose last idle request is at most `T` before the previous tick, the ticks
that request an idle image are each more than `T` and at most `T + d` after the previous
idle request. -/
theorem idle_clocks_after (T d : Nat) (hT : 0 < T) (acts : List Action) :
    ∀ (s : ESP32Camera) (p : Nat), s.idle_update_interval_ = T →
      s.last_idle_request_ ≤ p → p ≤ s.last_idle_request_ + T →
      (clocks acts).Chain (fun a b => a ≤ b ∧ b ≤ a + d) p →
      (∀ t ∈ clocks acts, t < 2 ^ 64) →
      (idle_clocks acts s).Chain (fun a b => a + T < b ∧ b ≤ a + T + d)
        s.last_idle_request_ := by
  induction acts with
  | nil => intro s p _ _ _ _ _; exact List.Chain.nil
  | cons a as ih =>
    intro s p hs hlo hhi hch hb
    cases a with
    | tick now ready retained =>
      simp only [clocks, List.chain_cons, List.mem_cons, forall_eq_or_imp] at hch hb
      obtain ⟨⟨hpn, hnd⟩, hch⟩ := hch
      obtain ⟨hnow, hrest⟩ := hb
      obtain ⟨-, g2, g3, -⟩ := loop_fields now ready retained s
      simp only [idle_clocks, Action.apply]
      cases hdue : idle_due now s with
      | true =>
        rw [hdue] at g3
        simp only [if_true] at g3
        have hel : T < sub_u64 now s.last_idle_request_ := by
          have := of_decide_eq_true hdue
          rw [hs] at this
          exact this.2
        have hgap : s.last_idle_request_ + T < now := by
          unfold sub_u64 at hel; omega
        simp only [if_true, List.chain_cons]
        refine ⟨⟨hgap, by omega⟩, ?_⟩
        have := ih (loop now ready retained s).1 now (g2.trans hs) (by rw [g3])
          (by rw [g3]; omega) hch hrest
        rw [g3] at this
        exact this
      | false =>
        rw [hdue] at g3
        simp only [Bool.false_eq_true, if_false] at g3 ⊢
        have hel : sub_u64 now s.last_idle_request_ ≤ T := by
          have := of_decide_eq_false hdue
          rw [hs] at this
          by_contra hc
          exact this ⟨by omega, by omega⟩
        have hle : now ≤ s.last_idle_request_ + T := by
          unfold sub_u64 at hel; omega
        have := ih (loop now ready retained s).1 now (g2.trans hs) (by rw [g3]; omega)
          (by rw [g3]; exact hle) hch hrest
        rw [g3] at this
        exact this
    | request_image r =>
      exact ih ((Action.request_image r).apply s).1 p hs hlo hhi hch hb
    | start_stream r =>
      exact ih ((Action.start_stream r).apply s).1 p hs hlo hhi hch hb
    | stop_stream r =>
      exact ih ((Action.stop_stream r).apply s).1 p hs hlo hhi hch hb
    | drop =>
      obtain ⟨-, g2, g3, -⟩ := apply_fields Action.drop s rfl
      have := ih (Action.drop.apply s).1 p (g2.trans hs) (by rw [g3]; exact hlo)
        (by rw [g3]; exact hhi) hch hb
      rw [g3] at this
      exact this
    | share =>
      obtain ⟨-, g2, g3, -⟩ := apply_fields Action.share s rfl
      have := ih (Action.share.apply s).1 p (g2.trans hs) (by rw [g3]; exact hlo)
        (by rw [g3]; exact hhi) hch hb
      rw [g3] at this
      exact this

/-- Two consecutive ticks that request an idle image are more than `T` and at most `T + d`
apart. -/
theorem idle_clocks_chain (T d : Nat) (hT : 0 < T) (acts : List Action) :
    ∀ s : ESP32Camera, s.idle_update_interval_ = T →
      (clocks acts).Chain' (fun a b => a ≤ b ∧ b ≤ a + d) →
      (∀ t ∈ clocks acts, t < 2 ^ 64) →
      (idle_clocks acts s).Chain' (fun a b => a + T < b ∧ b ≤ a + T + d) := by
  induction acts with
  | nil => intro s _ _ _; exact List.chain'_nil
  | cons a as ih =>
    intro s hs hch hb
    cases a with
    | tick now ready retained =>
      simp only [clocks, List.mem_cons, forall_eq_or_imp] at hch hb
      obtain ⟨hnow, hrest⟩ := hb
      obtain ⟨-, g2, g3, -⟩ := loop_fields now ready retained s
      simp only [idle_clocks, Action.apply]
      cases hdue : idle_due now s with
      | true =>
        rw [hdue] at g3
        simp only [if_true] at g3
        have := idle_clocks_after T d hT as (loop now ready retained s).1 now (g2.trans hs)
          (by rw [g3]) (by rw [g3]; omega) hch hrest
        rw [g3] at this
        simpa using this
      | false =>
        simp only [Bool.false_eq_true, if_false]
        exact ih (loop now ready retained s).1 (g2.trans hs) hch.tail hrest
    | request_image r => exact ih ((Action.request_image r).apply s).1 hs hch hb
    | start_stream r => exact ih ((Action.start_stream r).apply s).1 hs hch hb
    | stop_stream r => exact ih ((Action.stop_stream r).apply s).1 hs hch hb
    | drop =>
      exact ih (Action.drop.apply s).1 ((apply_fields Action.drop s rfl).2.1.trans hs) hch hb
    | share =>
      exact ih (Action.share.apply s).1 ((apply_fields Action.share s rfl).2.1.trans hs) hch hb

/-- C7. With `idle_update_interval_ = T > 0`: a tick at which more than `T` has elapsed
since `last_idle_request_` requests an idle image, whatever the get queue holds: it records
its clock reading in `last_idle_request_` and sets the `IDLE` bit of `single_requesters_`,
which is still set when the tick ends unless the tick has published an image, and that
image is then requested by `IDLE`. Along every sequence of ticks, requester calls and
reference moves whose ticks read non-decreasing `uint64_t` clock values at most `d` apart,
the clock readings of two consecutive ticks that request an idle image differ by more than
`T` and by at most `T + d`. -/
theorem idle_liveness (T d : Nat) (acts : List Action) (s : ESP32Camera) (hT : 0 < T)
    (hs : s.idle_update_interval_ = T)
    (hch : (clocks acts).Chain' (fun a b => a ≤ b ∧ b ≤ a + d))
    (hb : ∀ t ∈ clocks acts, t < 2 ^ 64) :
    (idle_clocks acts s).Chain' (fun a b => a + T < b ∧ b ≤ a + T + d) ∧
    (∀ now ready retained, T < sub_u64 now s.last_idle_request_ →
      idle_due now s = true ∧
      (loop now ready retained s).1.last_idle_request_ = now ∧
      (before_fetch now s).single_requesters_.testBit CameraRequester.IDLE.toNat = true ∧
      (published (loop now ready retained s).2 = false →
        (loop now ready retained s).1.single_requesters_.testBit
          CameraRequester.IDLE.toNat = true) ∧
      (∀ img, Event.new_image img ∈ (loop now ready retained s).2 →
        img.was_requested_by CameraRequester.IDLE = true)) := by
  refine ⟨idle_clocks_chain T d hT acts s hs hch hb, ?_⟩
  intro now ready retained hel
  have hdue : idle_due now s = true := by
    unfold idle_due
    rw [hs]
    exact decide_eq_true ⟨by omega, hel⟩
  obtain ⟨f1, -⟩ := before_fetch_fields now s
  obtain ⟨-, -, g3, -⟩ := loop_fields now ready retained s
  rw [hdue] at f1 g3
  simp only [if_true] at f1 g3
  have hbit : (before_fetch now s).single_requesters_.testBit
      CameraRequester.IDLE.toNat = true := by
    rw [f1, Nat.testBit_mod_two_pow, Nat.testBit_or, testBit_requester_bit]
    simp [CameraRequester.toNat]
  refine ⟨hdue, g3, hbit, ?_, ?_⟩
  · intro hp
    rw [loop_no_publish now ready retained s hp]
    exact hbit
  · intro img himg
    obtain ⟨-, fb, -, hi⟩ := (new_image_mem_iff img now ready retained s).mp himg
    unfold CameraImage.was_requested_by
    rw [and_bit_ne_zero img.requesters_ CameraRequester.IDLE.toNat, hi]
    simp only [CameraImage.new]
    rw [Nat.testBit_mod_two_pow, Nat.testBit_or, hbit]
    simp [CameraRequester.toNat]

/-- C7 on a concrete run with `idle_update_interval_ = 15000` and ticks 4000 apart: the
ticks at 16000 and 32000 request an idle image. -/
theorem idle_liveness_witness :
    (idle_clocks
      [Action.tick 16000 none 0, Action.tick 20000 none 0, Action.tick 24000 none 0,
       Action.tick 28000 none 0, Action.tick 32000 none 0]
      {}).Chain' (fun a b => a + 15000 < b ∧ b ≤ a + 15000 + 4000) :=
  (idle_liveness 15000 4000
      [Action.tick 16000 none 0, Action.tick 20000 none 0, Action.tick 24000 none 0,
       Action.tick 28000 none 0, Action.tick 32000 none 0]
      {} (by decide) rfl (by simp [clocks]) (by simp [clocks])).1

/-! ## C8: starting and stopping a stream -/

/-- C8. For every requester `c` and every `uint8_t` stream mask, `start_stream(c)` calls the
start callbacks exactly once and sets bit `c`, `stop_stream(c)` calls the stop callbacks
exactly once and clears bit `c`, whatever bit `c` was; both leave the other bits of
`stream_requesters_` and all of `single_requesters_`. From an empty stream mask,
`start_stream(API_REQUESTER)` then `stop_stream(API_REQUESTER)` call the start callbacks
once, then the stop callbacks once, and leave the stream mask at 0. -/
theorem stream_start_stop (c : CameraRequester) (s : ESP32Camera)
    (hm : s.stream_requesters_ < 2 ^ 8) :
    (start_stream c s).2 = [Event.stream_start] ∧
    (∀ i, (start_stream c s).1.stream_requesters_.testBit i =
      (decide (i = c.toNat) || s.stream_requesters_.testBit i)) ∧
    (start_stream c s).1.single_requesters_ = s.single_requesters_ ∧
    (stop_stream c s).2 = [Event.stream_stop] ∧
    (∀ i, (stop_stream c s).1.stream_requesters_.testBit i =
      (!decide (i = c.toNat) && s.stream_requesters_.testBit i)) ∧
    (stop_stream c s).1.single_requesters_ = s.single_requesters_ ∧
    (s.stream_requesters_ = 0 →
      (run [Action.start_stream CameraRequester.API_REQUESTER,
            Action.stop_stream CameraRequester.API_REQUESTER] s).2 =
        [Event.stream_start, Event.stream_stop] ∧
      (run [Action.start_stream CameraRequester.API_REQUESTER,
            Action.stop_stream CameraRequester.API_REQUESTER] s).1.stream_requesters_ = 0) := by
  refine ⟨rfl, ?_, rfl, rfl, ?_, rfl, ?_⟩
  · intro i
    simp only [start_stream]
    rw [or_bit_mod _ _ hm, Nat.testBit_or, testBit_requester_bit, Bool.or_comm]
    congr 1
    exact decide_eq_decide.mpr eq_comm
  · intro i
    simp only [stop_stream]
    rw [and_mod _ _ hm, Nat.testBit_and, testBit_not_requester_bit, Bool.and_comm]
    cases hb : s.stream_requesters_.testBit i with
    | false => simp
    | true =>
      have hi := lt_of_testBit _ _ hm hb
      have h32 : i < 32 := by omega
      simp only [h32, decide_True, Bool.true_and, Bool.and_true]
      congr 1
      exact decide_eq_decide.mpr eq_comm
  · intro h0
    simp only [run, Action.apply, start_stream, stop_stream, h0]
    exact ⟨rfl, by decide⟩

/-- C8 at the mask with only the `WEB_REQUESTER` bit set. -/
theorem stream_start_stop_witness :
    (start_stream CameraRequester.API_REQUESTER { stream_requesters_ := 4 }).2 =
      [Event.stream_start] ∧
    (stop_stream CameraRequester.API_REQUESTER { stream_requesters_ := 4 }).2 =
      [Event.stream_stop] :=
  ⟨(stream_start_stop CameraRequester.API_REQUESTER { stream_requesters_ := 4 }
      (by decide)).1,
   (stream_start_stop CameraRequester.API_REQUESTER { stream_requesters_ := 4 }
      (by decide)).2.2.2.1⟩

/-! ## C9: the frame cursor -/

/-- A sequence of `consume_data` calls leaves the bound image. -/
theorem consume_all_image (ns : List Nat) :
    ∀ r : CameraImageReader, (CameraImageReader.consume_all ns r).image_ = r.image_ := by
  induction ns with
  | nil => intro r; rfl
  | cons n ns ih =>
    intro r
    simp only [CameraImageReader.consume_all]
    rw [ih]
    rfl

/-- The bytes available in a cursor bound to an image whose offset is within the payload. -/
theorem available_of_bound (img : CameraImage) (fb : camera_fb_t) (hb : img.buffer_ = some fb)
    (hlen : fb.len < 2 ^ 32) (r : CameraImageReader) (hr : r.image_ = some img)
    (ho : r.offset_ ≤ fb.len) : r.available = some (fb.len - r.offset_) := by
  unfold CameraImageReader.available CameraImage.get_data_length sub_size
  rw [hr]
  simp only [hb, Option.map_some', Option.some.injEq]
  omega

/-- Consuming within the available bytes adds up the offset and keeps it within the
payload. -/
theorem consume_all_offset (img : CameraImage) (fb : camera_fb_t)
    (hb : img.buffer_ = some fb) (hlen : fb.len < 2 ^ 32) (ns : List Nat) :
    ∀ r : CameraImageReader, r.image_ = some img → r.offset_ ≤ fb.len →
      CameraImageReader.within_available ns r = true →
      (CameraImageReader.consume_all ns r).offset_ = r.offset_ + ns.sum ∧
        r.offset_ + ns.sum ≤ fb.len := by
  induction ns with
  | nil => intro r _ ho _; exact ⟨rfl, ho⟩
  | cons n ns ih =>
    intro r hr ho hpre
    simp only [CameraImageReader.within_available,
      available_of_bound img fb hb hlen r hr ho, Bool.and_eq_true, decide_eq_true_eq] at hpre
    obtain ⟨hn, hrest⟩ := hpre
    have hoff : (r.consume_data n).offset_ = r.offset_ + n := by
      simp only [CameraImageReader.consume_data]
      exact Nat.mod_eq_of_lt (by omega)
    obtain ⟨h1, h2⟩ := ih (r.consume_data n) hr (by rw [hoff]; omega) hrest
    rw [hoff] at h1 h2
    simp only [CameraImageReader.consume_all, List.sum_cons]
    exact ⟨by rw [h1]; omega, by omega⟩

/-- C9. For every image `h` with a valid buffer: after `set_image(h)` the offset is 0 and
`available()` is the payload length; after any further sequence of `consume_data(n)` calls,
each with `n <= available()` at the time of the call, the offset is the sum of the `n`, at
most the payload length, and `available()` is the payload length minus that sum. A cursor
that was never bound, or on which `return_image()` was called, reports `available() = 0`
whatever has been consumed. -/
theorem cursor_accounting (h : CameraImage) (fb : camera_fb_t) (hb : h.buffer_ = some fb)
    (hlen : fb.len < 2 ^ 32) (r0 : CameraImageReader) (ns : List Nat)
    (hpre : CameraImageReader.within_available ns (r0.set_image (some h)) = true) :
    (r0.set_image (some h)).offset_ = 0 ∧
    (r0.set_image (some h)).available = some fb.len ∧
    (CameraImageReader.consume_all ns (r0.set_image (some h))).offset_ = ns.sum ∧
    (CameraImageReader.consume_all ns (r0.set_image (some h))).offset_ ≤ fb.len ∧
    (CameraImageReader.consume_all ns (r0.set_image (some h))).available =
      some (fb.len - ns.sum) ∧
    (∀ ms, (CameraImageReader.consume_all ms {}).available = some 0) ∧
    (∀ (r : CameraImageReader) ms,
      (CameraImageReader.consume_all ms r.return_image).available = some 0) := by
  have hbound : (r0.set_image (some h)).image_ = some h := rfl
  have hzero : (r0.set_image (some h)).offset_ = 0 := rfl
  obtain ⟨h1, h2⟩ := consume_all_offset h fb hb hlen ns (r0.set_image (some h)) hbound
    (by rw [hzero]; exact Nat.zero_le _) hpre
  rw [hzero, Nat.zero_add] at h1 h2
  refine ⟨hzero, ?_, h1, by rw [h1]; exact h2, ?_, ?_, ?_⟩
  · rw [available_of_bound h fb hb hlen _ hbound (by rw [hzero]; exact Nat.zero_le _), hzero]
    rfl
  · rw [available_of_bound h fb hb hlen _ ((consume_all_image ns _).trans hbound)
      (by rw [h1]; exact h2), h1]
  · intro ms
    unfold CameraImageReader.available
    rw [consume_all_image]
  · intro r ms
    unfold CameraImageReader.available
    rw [consume_all_image]
    rfl

/-- C9 on an image of 100 bytes drained in chunks of 40, 40 and 20 bytes. -/
theorem cursor_accounting_witness :
    (CameraImageReader.consume_all [40, 40, 20]
      (CameraImageReader.set_image (some (CameraImage.new (some ⟨7, 100, 4, 4⟩) 4)) {})).available
      = some (100 - [40, 40, 20].sum) :=
  (cursor_accounting (CameraImage.new (some ⟨7, 100, 4, 4⟩) 4) ⟨7, 100, 4, 4⟩ rfl (by decide)
    {} [40, 40, 20] (by decide)).2.2.2.2.1

/-! ## C10: the unit of the intervals -/

/-- C10, what the code does: the intervals are compared with differences of clock readings
as they are. With the default `max_update_interval_ = 1000` and a stream requester, the
ticks at clock readings 2000 and 4000 both publish, 2000 clock units apart and not
`1000 * 1000`; with the default `idle_update_interval_ = 15000` the ticks at 16000 and
32000 both request an idle image, 16000 clock units apart and not `1000 * 15000`. -/
theorem intervals_in_clock_units :
    ({} : ESP32Camera).max_update_interval_ = 1000 ∧
    publish_clocks
      [Action.tick 2000 (some (some ⟨7, 100, 4, 4⟩)) 0,
       Action.tick 4000 (some (some ⟨7, 100, 4, 4⟩)) 0]
      { stream_requesters_ := 2 } = [2000, 4000] ∧
    ({} : ESP32Camera).idle_update_interval_ = 15000 ∧
    idle_clocks [Action.tick 16000 none 0, Action.tick 32000 none 0] {} = [16000, 32000] := by
  decide

/-! ## Lemmas on the buffers received and sent back -/

/-- The release check sends the buffer of the image it lets go of, and receives nothing. -/
theorem loop_return_conserves (s : ESP32Camera) (hv : valid_current s) :
    sent_valid (loop_return s).2 + occupied (loop_return s).1.current_image_ =
      occupied s.current_image_ ∧
    received_valid (loop_return s).2 = 0 ∧ valid_current (loop_return s).1 := by
  rw [loop_return_eq]
  cases hc : s.current_image_ with
  | none => exact ⟨by simp [sent_valid, occupied, hc], rfl, hv⟩
  | some p =>
    obtain ⟨fb, hfb⟩ := hv p hc
    by_cases ho : p.others = 0
    · simp only [ho, if_true]
      refine ⟨by simp [sent_valid, occupied, hfb], rfl, ?_⟩
      intro q hq
      simp at hq
    · simp only [ho, if_false]
      exact ⟨by simp [sent_valid, occupied, hc], rfl, hv⟩

/-- Over a tick, the valid buffers sent back and the image held account for the valid
buffers received and the image held before. -/
theorem loop_conserves (now : Nat) (ready : Option FbPtr) (retained : Nat) (s : ESP32Camera)
    (hv : valid_current s) :
    sent_valid (loop now ready retained s).2 +
        occupied (loop now ready retained s).1.current_image_ =
      received_valid (loop now ready retained s).2 + occupied s.current_image_ ∧
    valid_current (loop now ready retained s).1 := by
  obtain ⟨h1, h2, h3⟩ := loop_return_conserves s hv
  have h7 := (before_fetch_fields now s).2.2.2.2.2.2
  have hvb : valid_current (before_fetch now s) := by
    intro p hp
    rw [h7] at hp
    exact h3 p hp
  rw [loop_eq]
  unfold sent_valid received_valid at *
  by_cases hg : gates_pass now s = true
  · have hcur := current_none_of_gates_pass now s hg
    rw [h7] at hcur
    rw [hcur] at h1
    simp only [hg, if_true, List.countP_append, h2]
    rcases ready with _ | _ | fb
    · simp only [loop_fetch, h7, hcur]
      refine ⟨by simpa [occupied] using h1, hvb⟩
    · simp only [loop_fetch, h7, hcur]
      refine ⟨by simpa [occupied] using h1, hvb⟩
    · simp only [loop_fetch]
      refine ⟨?_, ?_⟩
      · simp only [occupied] at h1 ⊢
        simp
        omega
      · intro q hq
        simp only [Option.some.injEq] at hq
        subst hq
        exact ⟨fb, rfl⟩
  · simp only [hg, Bool.false_eq_true, if_false, h2, h7]
    exact ⟨by omega, hvb⟩

/-- Dropping or copying a reference keeps the buffer of the current image. -/
theorem valid_current_references (s : ESP32Camera) (hv : valid_current s) :
    valid_current (drop_reference s) ∧ valid_current (share_reference s) := by
  unfold drop_reference share_reference
  cases hc : s.current_image_ with
  | none => exact ⟨hv, hv⟩
  | some p =>
    obtain ⟨fb, hfb⟩ := hv p hc
    by_cases ho : 0 < p.others
    · simp only [ho, if_true]
      constructor <;>
      · intro q hq
        simp only [Option.some.injEq] at hq
        subst hq
        exact ⟨fb, hfb⟩
    · simp only [ho, if_false]
      exact ⟨hv, hv⟩

/-- Over a sequence of actions, the valid buffers sent back and the image held account for
the valid buffers received and the image held before. -/
theorem run_conserves (acts : List Action) :
    ∀ s : ESP32Camera, valid_current s →
      sent_valid (run acts s).2 + occupied (run acts s).1.current_image_ =
        received_valid (run acts s).2 + occupied s.current_image_ ∧
      valid_current (run acts s).1 := by
  induction acts with
  | nil => intro s hv; exact ⟨by simp [run, sent_valid, received_valid], hv⟩
  | cons a as ih =>
    intro s hv
    have hstep : sent_valid (a.apply s).2 + occupied (a.apply s).1.current_image_ =
          received_valid (a.apply s).2 + occupied s.current_image_ ∧
        valid_current (a.apply s).1 := by
      cases a with
      | tick now ready retained => exact loop_conserves now ready retained s hv
      | request_image r => exact ⟨by simp [Action.apply, sent_valid, received_valid,
          request_image], hv⟩
      | start_stream r => exact ⟨by simp [Action.apply, sent_valid, received_valid,
          start_stream], hv⟩
      | stop_stream r => exact ⟨by simp [Action.apply, sent_valid, received_valid,
          stop_stream], hv⟩
      | drop =>
        refine ⟨?_, (valid_current_references s hv).1⟩
        simp [Action.apply, sent_valid, received_valid, occupied_drop_reference]
      | share =>
        refine ⟨?_, (valid_current_references s hv).2⟩
        simp [Action.apply, sent_valid, received_valid, occupied_share_reference]
    obtain ⟨h1, h2⟩ := hstep
    obtain ⟨h3, h4⟩ := ih (a.apply s).1 h2
    refine ⟨?_, h4⟩
    simp only [run]
    unfold sent_valid received_valid at *
    simp only [List.countP_append]
    omega

/-! ## Lemmas on the queues -/

/-- In a balanced system at most one buffer is in flight. -/
theorem in_flight_le_one (sys : System) (h : balanced sys) : in_flight sys ≤ 1 := by
  obtain ⟨-, hflight⟩ := h
  have hout : sys.producer.outstanding ≤ 1 := by
    cases sys.producer <;> simp [ProducerPc.outstanding]
  omega

/-- While the camera holds an image, both queues are empty. -/
theorem queues_empty_of_current (sys : System) (h : balanced sys) (p : SharedImage)
    (hp : sys.camera.current_image_ = some p) :
    sys.framebuffer_get_queue_ = none ∧ sys.framebuffer_return_queue_ = none := by
  have hle := in_flight_le_one sys h
  unfold in_flight at hle
  rw [hp] at hle
  constructor
  · cases hq : sys.framebuffer_get_queue_ with
    | none => rfl
    | some x => rw [hq] at hle; simp only [occupied] at hle; omega
  · cases hq : sys.framebuffer_return_queue_ with
    | none => rfl
    | some x => rw [hq] at hle; simp only [occupied] at hle; omega

/-- While the arbiter is about to forward an invalid frame, the return queue is empty. -/
theorem return_queue_empty_of_pending (sys : System) (h : balanced sys) (fb : FbPtr)
    (ha : sys.arbiter = ArbiterPc.line_317 fb) : sys.framebuffer_return_queue_ = none := by
  have hle := in_flight_le_one sys h
  unfold in_flight at hle
  rw [ha] at hle
  cases hq : sys.framebuffer_return_queue_ with
  | none => rfl
  | some x => rw [hq] at hle; simp only [occupied, ArbiterPc.pending] at hle; omega

/-- In a balanced system the release check can always be taken: its send, when there is
one, finds the return queue empty. -/
theorem tick_return_enabled (sys : System) (h : balanced sys)
    (ha : sys.arbiter = ArbiterPc.line_283) :
    (∀ fb, fb ∈ returned (loop_return sys.camera).2 → sys.framebuffer_return_queue_ = none) ∧
    (step Move.tick_return sys).isSome = true := by
  simp only [step, ha, loop_return_eq]
  cases hc : sys.camera.current_image_ with
  | none => simp [returned]
  | some p =>
    have hq := (queues_empty_of_current sys h p hc).2
    by_cases ho : p.others = 0
    · simp [ho, returned, hq, xQueueSend]
    · simp [ho, returned]

/-- In a balanced system the forward of an invalid frame can always be taken. -/
theorem tick_forward_enabled (sys : System) (h : balanced sys) (fb : FbPtr)
    (ha : sys.arbiter = ArbiterPc.line_317 fb) :
    (step Move.tick_forward sys).isSome = true := by
  simp [step, ha, return_queue_empty_of_pending sys h fb ha, xQueueSend]

/-- The body of the tick can always be taken: its receive does not wait. -/
theorem tick_body_enabled (now retained : Nat) (sys : System)
    (ha : sys.arbiter = ArbiterPc.line_290) :
    (step (Move.tick_body now retained) sys).isSome = true := by
  simp [step, ha]

/-- Where the arbiter stands after each of its moves. -/
theorem arbiter_after (sys sys' : System) :
    (step Move.tick_return sys = some sys' → sys'.arbiter = ArbiterPc.line_290) ∧
    (∀ now retained, step (Move.tick_body now retained) sys = some sys' →
      sys'.arbiter = ArbiterPc.line_283 ∨ ∃ fb, sys'.arbiter = ArbiterPc.line_317 fb) ∧
    (step Move.tick_forward sys = some sys' → sys'.arbiter = ArbiterPc.line_283) := by
  refine ⟨?_, ?_, ?_⟩
  · intro hs
    simp only [step] at hs
    cases ha : sys.arbiter with
    | line_290 => simp [ha] at hs
    | line_317 fb => simp [ha] at hs
    | line_283 =>
      simp only [ha] at hs
      cases hr : returned (loop_return sys.camera).2 with
      | nil =>
        simp only [hr, Option.some.injEq] at hs
        subst hs; rfl
      | cons fb rest =>
        simp only [hr, Option.map_eq_some'] at hs
        obtain ⟨q, -, hq⟩ := hs
        subst hq; rfl
  · intro now retained hs
    simp only [step] at hs
    cases ha : sys.arbiter with
    | line_283 => simp [ha] at hs
    | line_317 fb => simp [ha] at hs
    | line_290 =>
      simp only [ha, Option.some.injEq] at hs
      subst hs
      cases hr : returned (loop_body now sys.framebuffer_get_queue_ retained sys.camera).2 with
      | nil => left; simp [hr]
      | cons fb rest => right; exact ⟨fb, by simp [hr]⟩
  · intro hs
    simp only [step] at hs
    cases ha : sys.arbiter with
    | line_283 => simp [ha] at hs
    | line_290 => simp [ha] at hs
    | line_317 fb =>
      simp only [ha, Option.map_eq_some'] at hs
      obtain ⟨q, -, hq⟩ := hs
      subst hq; rfl

/-- In a balanced system a tick that publishes finds `current_image_` empty. -/
theorem current_none_of_publish (now retained : Nat) (sys : System) (h : balanced sys)
    (hp : published (loop_body now sys.framebuffer_get_queue_ retained sys.camera).2 = true) :
    sys.camera.current_image_ = none := by
  cases hc : sys.camera.current_image_ with
  | none => rfl
  | some p =>
    have hq := (queues_empty_of_current sys h p hc).1
    rw [hq] at hp
    simp only [loop_body] at hp
    split_ifs at hp <;> simp [loop_fetch, published] at hp

/-- A tick calls `xQueueReceive` at most once. -/
theorem receive_at_most_once (now : Nat) (ready : Option FbPtr) (retained : Nat)
    (s : ESP32Camera) :
    (loop now ready retained s).2.countP (fun e => match e with
      | Event.receive_get _ => true
      | _ => false) ≤ 1 := by
  have hr : (loop_return s).2.countP (fun e => match e with
      | Event.receive_get _ => true
      | _ => false) = 0 := by
    rw [loop_return_eq]
    cases s.current_image_ with
    | none => simp
    | some p => by_cases ho : p.others = 0 <;> simp [ho]
  rw [loop_eq]
  by_cases hg : gates_pass now s = true
  · simp only [hg, if_true, List.countP_append, hr]
    rcases ready with _ | _ | fb <;> simp [loop_fetch]
  · simp only [hg, Bool.false_eq_true, if_false, hr]
    exact Nat.zero_le _

/-! ## C11: the outstanding-use gate -/

/-- C11. A tick calls `xQueueReceive` only when `current_image_` is empty after its release
check. When `use_count()` is more than 1 the tick neither receives nor publishes and keeps
`current_image_`. A tick that publishes finds `current_image_` empty at line 320: either it
was empty before the tick, or the tick has first sent its buffer on the return queue.
Over every sequence of ticks, requester calls and reference moves, the valid buffers sent
on the return queue plus the image held at the end are the valid buffers received plus
the image held at the start, so no received buffer is sent back twice. In every state the
producer task and the arbiter reach from `setup`, even with a reference dropped between
the release check and the gate, a tick that publishes finds `current_image_` empty. -/
theorem outstanding_use_gate (now : Nat) (ready : Option FbPtr) (retained : Nat)
    (s : ESP32Camera) :
    (fetched (loop now ready retained s).2 = true →
      (loop_return s).1.current_image_ = none) ∧
    (1 < use_count s.current_image_ →
      fetched (loop now ready retained s).2 = false ∧
      published (loop now ready retained s).2 = false ∧
      (loop now ready retained s).1.current_image_ = s.current_image_) ∧
    (published (loop now ready retained s).2 = true →
      (before_fetch now s).current_image_ = none ∧
      (s.current_image_ = none ∨ ∃ p rest, s.current_image_ = some p ∧
        (loop now ready retained s).2 = Event.send_return p.image.buffer_ :: rest)) ∧
    (∀ acts, valid_current s →
      sent_valid (run acts s).2 + occupied (run acts s).1.current_image_ =
        received_valid (run acts s).2 + occupied s.current_image_ ∧
      sent_valid (run acts s).2 ≤ received_valid (run acts s).2 + occupied s.current_image_) ∧
    (∀ t0 max_update_interval idle_update_interval moves sys now1 retained1,
      steps moves (setup t0 max_update_interval idle_update_interval) = some sys →
      published (loop_body now1 sys.framebuffer_get_queue_ retained1 sys.camera).2 = true →
      sys.camera.current_image_ = none) := by
  have h7 := (before_fetch_fields now s).2.2.2.2.2.2
  refine ⟨?_, ?_, ?_, ?_, ?_⟩
  · intro hf
    have hg := (fetched_iff now ready retained s).mp hf
    rw [← h7]
    exact current_none_of_gates_pass now s hg
  · intro hu
    cases hc : s.current_image_ with
    | none => simp [hc, use_count] at hu
    | some p =>
      have ho : 0 < p.others := by
        simp only [hc, use_count] at hu
        omega
      obtain ⟨h1, h2⟩ := loop_of_held now ready retained s p hc ho
      rw [h1, h2]
      exact ⟨rfl, rfl, rfl⟩
  · intro hp
    obtain ⟨hg, -⟩ := (published_iff now ready retained s).mp hp
    refine ⟨current_none_of_gates_pass now s hg, ?_⟩
    cases hc : s.current_image_ with
    | none => left; rfl
    | some p =>
      right
      by_cases ho : p.others = 0
      · refine ⟨p, (loop_body now ready retained (loop_return s).1).2, rfl, ?_⟩
        rw [loop_events, loop_return_eq, hc]
        simp [ho]
      · have h1 := (loop_of_held now ready retained s p hc (by omega)).1
        rw [h1] at hp
        simp [published] at hp
  · intro acts hv
    obtain ⟨h1, -⟩ := run_conserves acts s hv
    exact ⟨h1, by omega⟩
  · intro t0 mx idl moves sys now1 retained1 hsteps hp
    exact current_none_of_publish now1 retained1 sys
      (steps_balanced moves _ sys (balanced_setup t0 mx idl) hsteps) hp

/-- C11 at a concrete state: an image with one subscriber reference stops the tick before
the fetch although a frame is ready, and the tick after the drop sends its buffer back and
then publishes the next frame. -/
theorem outstanding_use_gate_witness :
    (fetched (loop 5000 (some (some ⟨8, 120, 4, 4⟩)) 0
        { stream_requesters_ := 2,
          current_image_ := some ⟨CameraImage.new (some ⟨7, 100, 4, 4⟩) 2, 1⟩ }).2 = false ∧
      published (loop 5000 (some (some ⟨8, 120, 4, 4⟩)) 0
        { stream_requesters_ := 2,
          current_image_ := some ⟨CameraImage.new (some ⟨7, 100, 4, 4⟩) 2, 1⟩ }).2 = false ∧
      (loop 5000 (some (some ⟨8, 120, 4, 4⟩)) 0
        { stream_requesters_ := 2,
          current_image_ := some ⟨CameraImage.new (some ⟨7, 100, 4, 4⟩) 2, 1⟩ }).1.current_image_
        = some ⟨CameraImage.new (some ⟨7, 100, 4, 4⟩) 2, 1⟩) ∧
    (before_fetch 5000
        { stream_requesters_ := 2,
          current_image_ := some ⟨CameraImage.new (some ⟨7, 100, 4, 4⟩) 2, 0⟩ }).current_image_
      = none :=
  ⟨(outstanding_use_gate 5000 (some (some ⟨8, 120, 4, 4⟩)) 0
      { stream_requesters_ := 2,
        current_image_ := some ⟨CameraImage.new (some ⟨7, 100, 4, 4⟩) 2, 1⟩ }).2.1 (by decide),
   ((outstanding_use_gate 5000 (some (some ⟨8, 120, 4, 4⟩)) 0
      { stream_requesters_ := 2,
        current_image_ := some ⟨CameraImage.new (some ⟨7, 100, 4, 4⟩) 2, 0⟩ }).2.2.1
      (by decide)).1⟩

/-! ## C12: the tick never blocks -/

/-- C12. In every state the producer task, the arbiter and the callers reach from `setup`:
when the arbiter is at the release check and that check sends a buffer, the return queue
is empty; when the arbiter is about to forward an invalid frame, the return queue is
empty; so each of the three moves of the arbiter can be taken at once, and a whole tick
runs to its end without any move of the producer task. A tick calls `xQueueReceive` at
most once, with a zero timeout: with an empty get queue it ends at once. -/
theorem tick_never_blocks (t0 max_update_interval idle_update_interval : Nat)
    (moves : List Move) (sys : System)
    (h : steps moves (setup t0 max_update_interval idle_update_interval) = some sys) :
    (sys.arbiter = ArbiterPc.line_283 →
      (∀ fb, fb ∈ returned (loop_return sys.camera).2 →
        sys.framebuffer_return_queue_ = none) ∧
      (step Move.tick_return sys).isSome = true) ∧
    (∀ fb, sys.arbiter = ArbiterPc.line_317 fb →
      sys.framebuffer_return_queue_ = none ∧ (step Move.tick_forward sys).isSome = true) ∧
    (∀ now retained, sys.arbiter = ArbiterPc.line_290 →
      (step (Move.tick_body now retained) sys).isSome = true) ∧
    (∀ now retained, sys.arbiter = ArbiterPc.line_283 →
      ∃ sys', sys'.arbiter = ArbiterPc.line_283 ∧
        (steps [Move.tick_return, Move.tick_body now retained] sys = some sys' ∨
         steps [Move.tick_return, Move.tick_body now retained, Move.tick_forward] sys
           = some sys')) ∧
    (∀ now ready retained (s : ESP32Camera),
      (loop now ready retained s).2.countP (fun e => match e with
        | Event.receive_get _ => true
        | _ => false) ≤ 1 ∧
      (gates_pass now s = true →
        loop now none retained s =
          (before_fetch now s, (loop_return s).2 ++ [Event.receive_get none]))) := by
  have hb := steps_balanced moves _ sys
    (balanced_setup t0 max_update_interval idle_update_interval) h
  refine ⟨fun ha => tick_return_enabled sys hb ha, ?_, ?_, ?_, ?_⟩
  · intro fb ha
    exact ⟨return_queue_empty_of_pending sys hb fb ha, tick_forward_enabled sys hb fb ha⟩
  · intro now retained ha
    exact tick_body_enabled now retained sys ha
  · intro now retained ha
    obtain ⟨s1, h1⟩ := Option.isSome_iff_exists.mp (tick_return_enabled sys hb ha).2
    have hb1 := step_balanced Move.tick_return sys s1 hb h1
    have ha1 := (arbiter_after sys s1).1 h1
    obtain ⟨s2, h2⟩ := Option.isSome_iff_exists.mp (tick_body_enabled now retained s1 ha1)
    have hb2 := step_balanced (Move.tick_body now retained) s1 s2 hb1 h2
    rcases (arbiter_after s1 s2).2.1 now retained h2 with ha2 | ⟨fb, ha2⟩
    · exact ⟨s2, ha2, Or.inl (by simp [steps, h1, h2])⟩
    · obtain ⟨s3, h3⟩ := Option.isSome_iff_exists.mp (tick_forward_enabled s2 hb2 fb ha2)
      exact ⟨s3, (arbiter_after s2 s3).2.2 h3, Or.inr (by simp [steps, h1, h2, h3])⟩
  · intro now ready retained s
    refine ⟨receive_at_most_once now ready retained s, ?_⟩
    intro hg
    rw [loop_eq]
    simp [hg, loop_fetch]

/-- C12 on a concrete run: after a frame is acquired, sent and published to no subscriber,
the release check of the next tick finds the return queue empty and can be taken. -/
theorem tick_never_blocks_witness :
    steps [Move.producer (some ⟨7, 100, 4, 4⟩), Move.producer none,
        Move.request_image CameraRequester.WEB_REQUESTER, Move.tick_return,
        Move.tick_body 5000 0] (setup 0 1000 15000) = some demo_published ∧
    returned (loop_return demo_published.camera).2 = [some ⟨7, 100, 4, 4⟩] ∧
    demo_published.framebuffer_return_queue_ = none ∧
    (step Move.tick_return demo_published).isSome = true := by
  have h : steps [Move.producer (some ⟨7, 100, 4, 4⟩), Move.producer none,
      Move.request_image CameraRequester.WEB_REQUESTER, Move.tick_return,
      Move.tick_body 5000 0] (setup 0 1000 15000) = some demo_published := by decide
  have hr : returned (loop_return demo_published.camera).2 = [some ⟨7, 100, 4, 4⟩] := by
    decide
  have ht := (tick_never_blocks 0 1000 15000 _ demo_published h).1 rfl
  exact ⟨h, hr, ht.1 (some ⟨7, 100, 4, 4⟩) (by rw [hr]; exact List.mem_singleton.mpr rfl),
    ht.2⟩

end esphome.esp32_camera
